import Mathlib

/-!
Verification of the squaredown connectors (Square -> MongoDB sync) against
their natural-language specification.  The Python sources are shallowly
embedded: dictionaries become association lists over a `Value` type of
Python/BSON values, MongoDB collections become association lists keyed by
the document id string, API calls become function parameters, and partial
Python code (KeyError, TypeError, ...) returns `Except String`.
-/

namespace Squaredown

/-! ## Generic keyed stores (Python dicts / MongoDB collections) -/

/-- First value bound to key `k` (Python `d.get(k)` / Mongo `find_one` on a
key-unique collection). -/
def lookupKey {κ α : Type} [DecidableEq κ] : List (κ × α) → κ → Option α
  | [], _ => none
  | (k', v) :: rest, k => if k' = k then some v else lookupKey rest k

/-- Bind key `k` to `v`: replace the first binding in place, or append a new
binding (Python `d[k] = v`, Mongo `find_one_and_replace` with `upsert`). -/
def setKey {κ α : Type} [DecidableEq κ] : List (κ × α) → κ → α → List (κ × α)
  | [], k, v => [(k, v)]
  | (k', v') :: rest, k, v =>
      if k' = k then (k, v) :: rest else (k', v') :: setKey rest k v

/-- Remove the first binding of key `k` (Mongo `delete_one`). -/
def removeKey {κ α : Type} [DecidableEq κ] : List (κ × α) → κ → List (κ × α)
  | [], _ => []
  | (k', v') :: rest, k => if k' = k then rest else (k', v') :: removeKey rest k

/-- Number of bindings of key `k`. -/
def countKey {κ α : Type} [DecidableEq κ] : List (κ × α) → κ → Nat
  | [], _ => 0
  | (k', _) :: rest, k => (if k' = k then 1 else 0) + countKey rest k

/-- The keys of a store are pairwise distinct (MongoDB `_id` uniqueness). -/
def keysNodup {κ α : Type} (kvs : List (κ × α)) : Prop :=
  (kvs.map Prod.fst).Nodup

theorem lookupKey_setKey_self {κ α : Type} [DecidableEq κ]
    (kvs : List (κ × α)) (k : κ) (v : α) :
    lookupKey (setKey kvs k v) k = some v := by
  induction kvs with
  | nil => simp [setKey, lookupKey]
  | cons kv rest ih =>
      obtain ⟨k', v'⟩ := kv
      by_cases h : k' = k
      · simp [setKey, h, lookupKey]
      · simp [setKey, h, lookupKey, ih]

theorem lookupKey_setKey_ne {κ α : Type} [DecidableEq κ]
    (kvs : List (κ × α)) (k k' : κ) (v : α) (hne : k ≠ k') :
    lookupKey (setKey kvs k v) k' = lookupKey kvs k' := by
  induction kvs with
  | nil => simp [setKey, lookupKey, hne]
  | cons kv rest ih =>
      obtain ⟨k₀, v₀⟩ := kv
      by_cases h : k₀ = k
      · subst h
        simp [setKey, lookupKey, hne]
      · simp [setKey, h, lookupKey, ih]

theorem countKey_eq_zero_of_lookup_none {κ α : Type} [DecidableEq κ]
    (kvs : List (κ × α)) (k : κ) (h : lookupKey kvs k = none) :
    countKey kvs k = 0 := by
  induction kvs with
  | nil => simp [countKey]
  | cons kv rest ih =>
      obtain ⟨k', v'⟩ := kv
      by_cases hk : k' = k
      · simp [lookupKey, hk] at h
      · simp only [lookupKey, if_neg hk] at h
        simp [countKey, hk, ih h]

theorem lookupKey_removeKey_self {κ α : Type} [DecidableEq κ]
    (kvs : List (κ × α)) (k : κ) (h : countKey kvs k ≤ 1) :
    lookupKey (removeKey kvs k) k = none := by
  induction kvs with
  | nil => simp [removeKey, lookupKey]
  | cons kv rest ih =>
      obtain ⟨k', v'⟩ := kv
      by_cases hk : k' = k
      · subst hk
        simp only [removeKey, if_pos rfl]
        simp [countKey] at h
        have hzero : countKey rest k' = 0 := by omega
        clear ih h
        induction rest with
        | nil => simp [lookupKey]
        | cons kv₂ rest₂ ih₂ =>
            obtain ⟨k₂, v₂⟩ := kv₂
            simp only [countKey] at hzero
            by_cases h2 : k₂ = k'
            · simp [h2] at hzero
            · simp only [lookupKey, if_neg h2]
              exact ih₂ (by omega)
      · simp only [removeKey, if_neg hk, lookupKey, if_neg hk]
        apply ih
        simp only [countKey, if_neg hk] at h
        omega

theorem lookupKey_removeKey_ne {κ α : Type} [DecidableEq κ]
    (kvs : List (κ × α)) (k k' : κ) (hne : k ≠ k') :
    lookupKey (removeKey kvs k) k' = lookupKey kvs k' := by
  induction kvs with
  | nil => simp [removeKey]
  | cons kv rest ih =>
      obtain ⟨k₀, v₀⟩ := kv
      by_cases hk : k₀ = k
      · subst hk
        simp [removeKey, lookupKey, hne]
      · simp [removeKey, hk, lookupKey, ih]

theorem countKey_setKey_self {κ α : Type} [DecidableEq κ]
    (kvs : List (κ × α)) (k : κ) (v : α) (h : countKey kvs k ≤ 1) :
    countKey (setKey kvs k v) k = 1 := by
  induction kvs with
  | nil => simp [setKey, countKey]
  | cons kv rest ih =>
      obtain ⟨k', v'⟩ := kv
      by_cases hk : k' = k
      · subst hk
        simp [countKey] at h
        simp [setKey, countKey]
        omega
      · simp only [setKey, if_neg hk, countKey, if_neg hk] at *
        have := ih (by omega)
        omega

theorem countKey_setKey_ne {κ α : Type} [DecidableEq κ]
    (kvs : List (κ × α)) (k k' : κ) (v : α) (hne : k ≠ k') :
    countKey (setKey kvs k v) k' = countKey kvs k' := by
  induction kvs with
  | nil => simp [setKey, countKey, hne]
  | cons kv rest ih =>
      obtain ⟨k₀, v₀⟩ := kv
      by_cases hk : k₀ = k
      · subst hk
        simp [setKey, countKey, hne]
      · simp [setKey, hk, countKey, ih]

theorem countKey_le_one_of_nodup {κ α : Type} [DecidableEq κ]
    (kvs : List (κ × α)) (k : κ) (h : keysNodup kvs) :
    countKey kvs k ≤ 1 := by
  induction kvs with
  | nil => simp [countKey]
  | cons kv rest ih =>
      obtain ⟨k', v'⟩ := kv
      simp only [keysNodup, List.map_cons, List.nodup_cons] at h
      obtain ⟨hnotin, hrest⟩ := h
      by_cases hk : k' = k
      · subst hk
        have : countKey rest k' = 0 := by
          clear ih
          induction rest with
          | nil => simp [countKey]
          | cons kv₂ rest₂ ih₂ =>
              obtain ⟨k₂, v₂⟩ := kv₂
              simp only [List.map_cons, List.mem_cons] at hnotin hrest
              push_neg at hnotin
              simp only [List.nodup_cons] at hrest
              by_cases h2 : k₂ = k'
              · exact absurd h2.symm hnotin.1
              · simp only [countKey, if_neg h2]
                have := ih₂ hnotin.2 hrest.2
                omega
        simp [countKey]
        omega
      · simp only [countKey, if_neg hk]
        have := ih hrest
        omega

theorem mem_keys_setKey {κ α : Type} [DecidableEq κ]
    (kvs : List (κ × α)) (k k' : κ) (v : α)
    (h : k' ∈ (setKey kvs k v).map Prod.fst) :
    k' ∈ kvs.map Prod.fst ∨ k' = k := by
  induction kvs with
  | nil =>
      simp [setKey] at h
      exact Or.inr h
  | cons kv rest ih =>
      obtain ⟨k₂, v₂⟩ := kv
      by_cases h2 : k₂ = k
      · subst h2
        rw [setKey, if_pos rfl] at h
        simp only [List.map_cons, List.mem_cons] at h
        rcases h with h | h
        · exact Or.inr h
        · exact Or.inl (List.mem_cons_of_mem _ h)
      · rw [setKey, if_neg h2] at h
        simp only [List.map_cons, List.mem_cons] at h
        rcases h with h | h
        · exact Or.inl (by simp [h])
        · rcases ih h with hh | hh
          · exact Or.inl (List.mem_cons_of_mem _ hh)
          · exact Or.inr hh

theorem keysNodup_setKey {κ α : Type} [DecidableEq κ]
    (kvs : List (κ × α)) (k : κ) (v : α) (h : keysNodup kvs) :
    keysNodup (setKey kvs k v) := by
  induction kvs with
  | nil =>
      simp [setKey, keysNodup]
  | cons kv rest ih =>
      obtain ⟨k', v'⟩ := kv
      simp only [keysNodup, List.map_cons, List.nodup_cons] at h
      obtain ⟨hnotin, hrest⟩ := h
      by_cases hk : k' = k
      · subst hk
        rw [setKey, if_pos rfl]
        simp only [keysNodup, List.map_cons, List.nodup_cons]
        exact ⟨hnotin, hrest⟩
      · rw [setKey, if_neg hk]
        simp only [keysNodup, List.map_cons, List.nodup_cons]
        refine ⟨fun hmem => ?_, ih hrest⟩
        rcases mem_keys_setKey rest k k' v hmem with hh | hh
        · exact hnotin hh
        · exact hk hh

/-! ## Python/BSON values -/

/-- Python/BSON values as stored in documents: None, bool, int, string,
decoded datetime (abstract instant), list, dict. -/
inductive Value where
  | vNone
  | vBool (b : Bool)
  | vInt (n : Int)
  | vStr (s : String)
  | vDT (t : Int)
  | vList (items : List Value)
  | vObj (fields : List (String × Value))
deriving Repr

mutual

/-- Python equality (`==`) restricted to the value forms the connectors
compare: structural equality within a form, `false` across forms. -/
def Value.beq : Value → Value → Bool
  | .vNone, .vNone => true
  | .vBool a, .vBool b => a == b
  | .vInt a, .vInt b => a == b
  | .vStr a, .vStr b => a == b
  | .vDT a, .vDT b => a == b
  | .vList a, .vList b => Value.beqList a b
  | .vObj a, .vObj b => Value.beqFields a b
  | _, _ => false

def Value.beqList : List Value → List Value → Bool
  | [], [] => true
  | x :: xs, y :: ys => Value.beq x y && Value.beqList xs ys
  | _, _ => false

def Value.beqFields : List (String × Value) → List (String × Value) → Bool
  | [], [] => true
  | (k1, v1) :: xs, (k2, v2) :: ys =>
      k1 == k2 && Value.beq v1 v2 && Value.beqFields xs ys
  | _, _ => false

end

/-- Python truthiness of a value. -/
def pyTruthy : Value → Bool
  | .vNone => false
  | .vBool b => b
  | .vInt n => n != 0
  | .vStr s => s ≠ ""
  | .vDT _ => true
  | .vList l => !l.isEmpty
  | .vObj f => !f.isEmpty

/-- Python `str()` as used by f-strings in the connectors; the sync code only
ever formats strings, so the other arms are nominal renderings. -/
def pyStr : Value → String
  | .vStr s => s
  | .vInt n => toString n
  | .vBool true => "True"
  | .vBool false => "False"
  | .vNone => "None"
  | .vDT t => toString t
  | .vList _ => "[...]"
  | .vObj _ => "{...}"

/-- Python `x == n` against an int literal (`tender["amount_money"]["amount"] == 0`);
bools compare as 0/1 in Python. -/
def pyEqInt (v : Value) (n : Int) : Bool :=
  match v with
  | .vInt m => m == n
  | .vBool b => (if b then (1 : Int) else 0) == n
  | _ => false

/-- Python `name.startswith("_")`, stated over the character list (the
`String.startsWith` of the library does not evaluate inside the kernel). -/
def startsWithUnderscore (s : String) : Bool :=
  s.data.head? == some ('_')

/-- ASCII lower-casing of one character (Python `str.lower` on the catalog
object type names, which are ASCII). -/
def lowerChar (c : Char) : Char :=
  if 65 ≤ c.toNat ∧ c.toNat ≤ 90 then Char.ofNat (c.toNat + 32) else c

/-- Python `str.lower()` on ASCII strings. -/
def pyLower (s : String) : String :=
  String.mk (s.data.map lowerChar)

/-- The numeric value of a decimal digit character. -/
def digitVal (c : Char) : Option Nat :=
  if 48 ≤ c.toNat ∧ c.toNat ≤ 57 then some (c.toNat - 48) else none

/-- Parse a non-empty run of decimal digits. -/
def digitsToNat : List Char → Option Nat
  | [] => none
  | cs => cs.foldl (fun acc c =>
      match acc, digitVal c with
      | some a, some d => some (a * 10 + d)
      | _, _ => none) (some 0)

/-- A Python whitespace character (the forms `int` strips). -/
def isPySpace (c : Char) : Bool :=
  c = ' ' ∨ c = '\t' ∨ c = '\n' ∨ c = '\r'

/-- Python `int(str)`: optional surrounding whitespace, optional sign,
decimal digits; None models the ValueError. -/
def pyParseInt (s : String) : Option Int :=
  let cs := s.data.dropWhile isPySpace
  let cs := (cs.reverse.dropWhile isPySpace).reverse
  match cs with
  | '-' :: rest => (digitsToNat rest).map (fun n => -(n : Int))
  | '+' :: rest => (digitsToNat rest).map (fun n => (n : Int))
  | rest => (digitsToNat rest).map (fun n => (n : Int))

/-- Lexicographic comparison of character lists by code point: the order
Python uses to compare the `updated_at` key strings. -/
def charsLe : List Char → List Char → Bool
  | [], _ => true
  | _ :: _, [] => false
  | a :: as, b :: bs => if a = b then charsLe as bs else decide (a.toNat < b.toNat)

/-- Python subscripting `obj[k]`: KeyError when the key is absent, TypeError
when the value is not a dict. -/
def Value.getField : Value → String → Except String Value
  | .vObj fields, k =>
      match lookupKey fields k with
      | some x => .ok x
      | none => .error "KeyError"
  | _, _ => .error "TypeError"

/-- Python `obj.get(k)` on a dict value (None when absent). -/
def Value.getOpt : Value → String → Option Value
  | .vObj fields, k => lookupKey fields k
  | _, _ => none

/-- The document id values produced by the Square API are strings; extracting
a collection key from anything else is rejected. -/
def asStr : Value → Except String String
  | .vStr s => .ok s
  | _ => .error "TypeError"

/-- Logging `dt.isoformat()` requires an actual datetime (AttributeError
otherwise). -/
def ensureDT : Value → Except String Unit
  | .vDT _ => .ok ()
  | _ => .error "AttributeError"

/-- Python `xs[i]` on a list (IndexError when out of range). -/
def listGet : List Value → Nat → Except String Value
  | [], _ => .error "IndexError"
  | x :: _, 0 => .ok x
  | _ :: xs, n + 1 => listGet xs n

/-- Python `d.update(props)`: bind every key of `props` in order. -/
def updateFields (obj : List (String × Value)) (props : List (String × Value)) :
    List (String × Value) :=
  props.foldl (fun o kv => setKey o kv.1 kv.2) obj


/-! ## Config (src/squaredown/config.py)

The configuration store.  `_props` is the loaded property set, `_name` the
name of the configuration set (the Mongo `_id`), `auto_update` an object
attribute consulted for truthiness, and `collection` the persisted MongoDB
configuration collection, holding documents of shape
`{_id: name, props: ...}`.
-/

/-- The persisted configuration document `{"_id": name, "props": props}`. -/
structure ConfigDoc where
  docId : Option String
  docProps : List (String × Value)
deriving Repr

/-- In-memory state of a `Config` object plus the backing collection. -/
structure ConfigState where
  name : Option String
  props : List (String × Value)
  autoUpdate : Value
  collection : List (Option String × ConfigDoc)
deriving Repr

/-- `Config.reserved`. -/
def configReserved : List String := ["auto_update", "mdb", "db_name", "mongo_client"]

/-- `Config.update`: `find_one_and_replace({_id: name}, {_id: name, props: props}, upsert=True)`. -/
def configUpdate (st : ConfigState) : ConfigState :=
  { st with collection := setKey st.collection st.name ⟨st.name, st.props⟩ }

/-- `Config.__getattr__` / `Config.__getitem__`: look the property up in the
loaded set, `None` (here `none`) when absent; the leading `if self._props`
makes the empty property set answer `None` directly. -/
def configGetattr (st : ConfigState) (propName : String) : Option Value :=
  if st.props.isEmpty then none
  else lookupKey st.props propName

/-- `Config.__setattr__` / `Config.__setitem__`: reserved names and names
starting with an underscore become plain object attributes (of these only
`auto_update` matters to the model); every other name is stored in the
property set and, when `auto_update` is truthy, immediately persisted. -/
def configSetattr (st : ConfigState) (propName : String) (v : Value) : ConfigState :=
  if propName ∈ configReserved ∨ startsWithUnderscore propName then
    if propName = "auto_update" then { st with autoUpdate := v } else st
  else
    let st1 := { st with props := setKey st.props propName v }
    if pyTruthy st1.autoUpdate then configUpdate st1 else st1

/-- `Config.__delattr__`: `self.props.pop(prop_name, None)`. -/
def configDelattr (st : ConfigState) (propName : String) : ConfigState :=
  { st with props := removeKey st.props propName }

/-- `Config.load_properties`: reset, then read the named document. -/
def configLoadProperties (st : ConfigState) (name : Option String) : ConfigState :=
  let st1 := { st with props := [], name := name }
  match lookupKey st1.collection name with
  | some doc => { st1 with props := doc.docProps }
  | none => st1


/-! ## Orders.get_order_state (src/squaredown/orders.py) -/

/-- The tender scan of `Orders.get_order_state`: walk the tenders, read
`tender["card_details"]["status"]`, and stop at the first status that is not
"CAPTURED" (the `break`); `none` when every status is "CAPTURED". -/
def firstNonCaptured : List Value → Except String (Option Value)
  | [] => .ok none
  | t :: ts => do
      let cd ← t.getField "card_details"
      let stv ← cd.getField "status"
      if Value.beq stv (.vStr "CAPTURED") then firstNonCaptured ts
      else .ok (some stv)

/-- `Orders.get_order_state`: return the "state" field, refined for OPEN
orders by the card status of the first non-captured tender, or
OPEN_TENDER_MISSING when the order has no (truthy) tenders.  The source is a
static method that only reads the order, hence a pure function here. -/
def getOrderState (order : List (String × Value)) : Except String (Option Value) :=
  match lookupKey order "state" with
  | none => .ok none
  | some sv =>
      if pyTruthy sv && Value.beq sv (.vStr "OPEN") then
        match lookupKey order "tenders" with
        | some tv =>
            if pyTruthy tv then
              match tv with
              | .vList ts => do
                  match ← firstNonCaptured ts with
                  | some stv => .ok (some (.vStr ("OPEN_TENDER_" ++ pyStr stv)))
                  | none => .ok (some (.vStr "OPEN"))
              | _ => .error "TypeError"
            else .ok (some (.vStr "OPEN_TENDER_MISSING"))
        | none => .ok (some (.vStr "OPEN_TENDER_MISSING"))
      else .ok (some sv)


/-! ## Timestamp decoding (src/squaredown/i_square.py)

`decode_datetime` parses an RFC 3339 string with `dateutil` and localizes it;
the parse itself is abstracted as a function `decode : String → Int` into
abstract instants (`Value.vDT`).  Passing a non-string raises. -/

/-- `SquareInterface.decode_datetime` applied to a field value. -/
def decodeValTs (decode : String → Int) : Value → Except String Value
  | .vStr s => .ok (.vDT (decode s))
  | _ => .error "TypeError"

/-- `d[k]` on a plain field list (KeyError when absent). -/
def getFieldFs (fs : List (String × Value)) (k : String) : Except String Value :=
  match lookupKey fs k with
  | some v => .ok v
  | none => .error "KeyError"

/-- Expect a dict value. -/
def asObj : Value → Except String (List (String × Value))
  | .vObj fs => .ok fs
  | _ => .error "TypeError"

/-- Expect a list value (iterating anything else raises). -/
def asList : Value → Except String (List Value)
  | .vList xs => .ok xs
  | _ => .error "TypeError"

/-- `if k in d: d[k] = self.decode_datetime(d[k])`. -/
def decodeTsField (decode : String → Int) (fs : List (String × Value)) (k : String) :
    Except String (List (String × Value)) :=
  match lookupKey fs k with
  | none => .ok fs
  | some v => do
      let d ← decodeValTs decode v
      .ok (setKey fs k d)

/-- `SquareInterface.decode_fulfillment_pickup`. -/
def decodeFulfillmentPickup (decode : String → Int) (pdv : Value) : Except String Value := do
  let fs ← asObj pdv
  let fs ← decodeTsField decode fs "accepted_at"
  let fs ← decodeTsField decode fs "canceled_at"
  let fs ← (match lookupKey fs "curbside_pickup_details" with
    | none => pure fs
    | some cv => do
        -- the source reads curbside["buyer_arrived_at"] without an `in` guard
        let cfs ← asObj cv
        let bav ← getFieldFs cfs "buyer_arrived_at"
        let d ← decodeValTs decode bav
        pure (setKey fs "curbside_pickup_details"
          (.vObj (setKey cfs "buyer_arrived_at" d))))
  let fs ← decodeTsField decode fs "expired_at"
  let fs ← decodeTsField decode fs "picked_up_at"
  let fs ← decodeTsField decode fs "pickup_at"
  let fs ← decodeTsField decode fs "placed_at"
  let fs ← decodeTsField decode fs "ready_at"
  let fs ← decodeTsField decode fs "rejected_at"
  pure (.vObj fs)

/-- `SquareInterface.decode_fulfillment_shipment`. -/
def decodeFulfillmentShipment (decode : String → Int) (sdv : Value) : Except String Value := do
  let fs ← asObj sdv
  let fs ← decodeTsField decode fs "canceled_at"
  let fs ← decodeTsField decode fs "expected_shipped_at"
  let fs ← decodeTsField decode fs "failed_at"
  let fs ← decodeTsField decode fs "in_progress_at"
  let fs ← decodeTsField decode fs "packaged_at"
  let fs ← decodeTsField decode fs "placed_at"
  let fs ← decodeTsField decode fs "shipped_at"
  pure (.vObj fs)

/-- `SquareInterface.decode_fulfillment`. -/
def decodeFulfillment (decode : String → Int) (fv : Value) : Except String Value := do
  let fs ← asObj fv
  let fs ← (match lookupKey fs "pickup_details" with
    | none => pure fs
    | some pv => do
        let p ← decodeFulfillmentPickup decode pv
        pure (setKey fs "pickup_details" p))
  let fs ← (match lookupKey fs "shipment_details" with
    | none => pure fs
    | some sv => do
        let p ← decodeFulfillmentShipment decode sv
        pure (setKey fs "shipment_details" p))
  pure (.vObj fs)

/-- `SquareInterface.decode_tender`. -/
def decodeTender (decode : String → Int) (tv : Value) : Except String Value := do
  let fs ← asObj tv
  let fs ← decodeTsField decode fs "created_at"
  pure (.vObj fs)

/-- The `processing_fee` loop shared by `decode_payment` and `decode_refund`. -/
def decodeProcessingFeeList (decode : String → Int) (v : Value) : Except String Value := do
  let items ← asList v
  let items ← items.mapM (fun fee => do
      let fs ← asObj fee
      let fs ← decodeTsField decode fs "effective_at"
      pure (Value.vObj fs))
  pure (.vList items)

/-- `SquareInterface.decode_refund`. -/
def decodeRefundVal (decode : String → Int) (rv : Value) : Except String Value := do
  let fs ← asObj rv
  let fs ← decodeTsField decode fs "created_at"
  let fs ← decodeTsField decode fs "updated_at"
  let fs ← (match lookupKey fs "processing_fee" with
    | none => pure fs
    | some pv => do
        let p ← decodeProcessingFeeList decode pv
        pure (setKey fs "processing_fee" p))
  pure (.vObj fs)

/-- `SquareInterface.decode_payment`. -/
def decodePayment (decode : String → Int) (pv : Value) : Except String Value := do
  let fs ← asObj pv
  let fs ← decodeTsField decode fs "created_at"
  let fs ← decodeTsField decode fs "updated_at"
  let fs ← (match lookupKey fs "processing_fee" with
    | none => pure fs
    | some fv => do
        let p ← decodeProcessingFeeList decode fv
        pure (setKey fs "processing_fee" p))
  let fs ← decodeTsField decode fs "delayed_until"
  pure (.vObj fs)

/-- `if k in order:` followed by an element-wise decode of a list field. -/
def decodeEachInListField (fs : List (String × Value)) (k : String)
    (f : Value → Except String Value) : Except String (List (String × Value)) :=
  match lookupKey fs k with
  | none => pure fs
  | some v => do
      let items ← asList v
      let items2 ← items.mapM f
      pure (setKey fs k (.vList items2))

/-- `SquareInterface.decode_order` on the field list of an order dict. -/
def decodeOrderFields (decode : String → Int) (fs : List (String × Value)) :
    Except String (List (String × Value)) := do
  let fs ← decodeTsField decode fs "created_at"
  let fs ← decodeTsField decode fs "updated_at"
  let fs ← decodeTsField decode fs "closed_at"
  let fs ← decodeEachInListField fs "fulfillments" (decodeFulfillment decode)
  let fs ← decodeEachInListField fs "tenders" (decodeTender decode)
  let fs ← decodeEachInListField fs "refunds" (decodeRefundVal decode)
  pure fs


/-! ## The order update pipeline (src/squaredown/orders.py, itemizations.py)

The MongoDB database: one association list per collection, keyed by the
document id string, plus the list of messages logged at ERROR level.  The
Square payment and refund APIs are function parameters.
-/

/-- A Square API call result (`result.is_success()` / `result.is_error()`). -/
inductive ApiResult where
  | success (body : Value)
  | failure (errors : List Value)

/-- The MongoDB collections touched by the order sync, plus the ERROR log. -/
structure SqDb where
  orders : List (String × Value)
  rawOrders : List (String × Value)
  tenders : List (String × Value)
  payments : List (String × Value)
  fulfillments : List (String × Value)
  refunds : List (String × Value)
  rawItemizations : List (String × Value)
  itemizations : List (String × Value)
  errLog : List String
deriving Repr

/-- The empty database. -/
def SqDb.empty : SqDb := ⟨[], [], [], [], [], [], [], [], []⟩

/-- Append messages to the ERROR log. -/
def SqDb.withErr (db : SqDb) (msgs : List String) : SqDb :=
  { db with errLog := db.errLog ++ msgs }

/-- Python `int(x)` as applied to the quantity field. -/
def pyInt : Value → Except String Int
  | .vInt n => .ok n
  | .vBool b => .ok (if b then 1 else 0)
  | .vStr s =>
      match pyParseInt s with
      | some n => .ok n
      | none => .error "ValueError"
  | _ => .error "TypeError"

/-- `Orders.make_order_properties`. -/
def makeOrderProperties (order : List (String × Value)) :
    Except String (List (String × Value)) := do
  let oid ← getFieldFs order "id"
  let st ← getOrderState order
  pure [("order_id", oid),
        ("order_state", st.getD .vNone),
        ("order_created_at", (lookupKey order "created_at").getD .vNone),
        ("order_updated_at", (lookupKey order "updated_at").getD .vNone),
        ("order_location_id", (lookupKey order "location_id").getD .vNone)]

/-- `Orders.add_order_properties`: `obj.update(self.make_order_properties(order))`. -/
def addOrderProperties (obj : Value) (order : List (String × Value)) :
    Except String Value := do
  let fs ← asObj obj
  let props ← makeOrderProperties order
  pure (.vObj (updateFields fs props))

/-- `Orders.update_order_tender`: annotate the tender with the order
properties and upsert it into square_order_tenders keyed by its id. -/
def updateOrderTender (db : SqDb) (obj : Value) (order : List (String × Value)) :
    Except String (SqDb × Value) := do
  let obj2 ← addOrderProperties obj order
  let ids ← asStr (← obj2.getField "id")
  pure ({ db with tenders := setKey db.tenders ids obj2 }, obj2)

/-- `Orders.update_payment`: decode and upsert into square_payments. -/
def updatePayment (decode : String → Int) (db : SqDb) (obj : Value) :
    Except String SqDb := do
  let p ← decodePayment decode obj
  let ids ← asStr (← p.getField "id")
  pure { db with payments := setKey db.payments ids p }

/-- The payment lookup of `Orders.process_tenders` for one tender: on
success store the payment; on error tolerate zero-amount, OTHER and CASH
tenders silently, otherwise log at ERROR level. -/
def processTenderPayment (decode : String → Int) (payApi : String → ApiResult)
    (db : SqDb) (t : Value) (tid : String) : Except String SqDb :=
  match payApi tid with
  | .success body => do
      let payment ← body.getField "payment"
      updatePayment decode db payment
  | .failure errs => do
      let am ← t.getField "amount_money"
      let amt ← am.getField "amount"
      if pyEqInt amt 0 then pure db
      else do
        let ty ← t.getField "type"
        if Value.beq ty (.vStr "OTHER") then pure db
        else if Value.beq ty (.vStr "CASH") then pure db
        else pure { db with errLog := db.errLog ++
          ["Error calling PaymentsApi.get_payment",
           String.intercalate ", " (errs.map pyStr)] }

/-- The tender loop of `Orders.process_tenders`.  `add_order_properties`
mutates each tender in place, so the order seen by later iterations carries
the already-annotated earlier tenders. -/
def processTendersGo (decode : String → Int) (payApi : String → ApiResult)
    (db : SqDb) (order : List (String × Value)) (done : List Value) :
    List Value → Except String (SqDb × List Value)
  | [] => pure (db, done.reverse)
  | t :: rest => do
      let tid ← asStr (← t.getField "id")
      let curOrder := setKey order "tenders" (.vList (done.reverse ++ t :: rest))
      let (db1, t2) ← updateOrderTender db t curOrder
      let db2 ← processTenderPayment decode payApi db1 t2 tid
      processTendersGo decode payApi db2 order (t2 :: done) rest

/-- `Orders.process_tenders`. -/
def processTenders (decode : String → Int) (payApi : String → ApiResult)
    (db : SqDb) (order : List (String × Value)) :
    Except String (SqDb × List (String × Value)) :=
  match lookupKey order "tenders" with
  | none => pure (db, order)
  | some tv =>
      if pyTruthy tv then
        match tv with
        | .vList ts => do
            let (db2, ts2) ← processTendersGo decode payApi db order [] ts
            pure (db2, setKey order "tenders" (.vList ts2))
        | _ => .error "TypeError"
      else pure (db, order)

/-- The fulfillment loop of `Orders.process_fulfillments` /
`Orders.update_fulfillment` (annotate in place, upsert keyed by uid). -/
def processFulfillmentsGo (db : SqDb) (order : List (String × Value))
    (done : List Value) : List Value → Except String (SqDb × List Value)
  | [] => pure (db, done.reverse)
  | f :: rest => do
      let curOrder := setKey order "fulfillments" (.vList (done.reverse ++ f :: rest))
      let f2 ← addOrderProperties f curOrder
      let uid ← asStr (← f2.getField "uid")
      let db2 := { db with fulfillments := setKey db.fulfillments uid f2 }
      processFulfillmentsGo db2 order (f2 :: done) rest

/-- `Orders.process_fulfillments` (guarded by `if "fulfillments" in order`). -/
def processFulfillments (db : SqDb) (order : List (String × Value)) :
    Except String (SqDb × List (String × Value)) :=
  match lookupKey order "fulfillments" with
  | none => pure (db, order)
  | some fv => do
      let items ← asList fv
      let (db2, items2) ← processFulfillmentsGo db order [] items
      pure (db2, setKey order "fulfillments" (.vList items2))

/-- `Itemizations.save_raw_itemization`: upsert the raw line item keyed by
`"<order_id>_<uid>"`. -/
def saveRawItemization (db : SqDb) (itm : Value) (order : List (String × Value)) :
    Except String SqDb := do
  let oidV ← getFieldFs order "_id"
  let uidV ← itm.getField "uid"
  let objId := pyStr oidV ++ "_" ++ pyStr uidV
  pure { db with rawItemizations := setKey db.rawItemizations objId itm }

/-- `Itemizations.apply_itemization_customizations`: set order_source from
the order source name and convert quantity to an integer. -/
def applyItemizationCustomizations (itm : List (String × Value))
    (order : List (String × Value)) : Except String (List (String × Value)) := do
  let src ← getFieldFs order "source"
  let nm ← src.getField "name"
  let itm1 := setKey itm "order_source" nm
  let qv ← getFieldFs itm1 "quantity"
  let q ← pyInt qv
  pure (setKey itm1 "quantity" (.vInt q))

/-- `Itemizations.update_itemization`: save the raw line item, re-key the
line item as `"<order_id>_<uid>"`, add the extra properties, apply the
customizations, delete any document still stored under the bare uid, and
upsert under the combined id. -/
def updateItemization (db : SqDb) (itmV : Value) (order : List (String × Value))
    (props : List (String × Value)) : Except String (SqDb × Value) := do
  let db1 ← saveRawItemization db itmV order
  let oidV ← getFieldFs order "_id"
  let uidV ← itmV.getField "uid"
  let itemizationId := pyStr oidV ++ "_" ++ pyStr uidV
  let itmFs ← asObj itmV
  let itmFs := setKey itmFs "id" (.vStr itemizationId)
  let itmFs := updateFields itmFs props
  let itmFs ← applyItemizationCustomizations itmFs order
  -- delete_one({"_id": itemization["uid"]}); a non-string uid matches nothing
  let coll1 := match uidV with
    | .vStr u => removeKey db1.itemizations u
    | _ => db1.itemizations
  let coll2 := setKey coll1 itemizationId (.vObj itmFs)
  pure ({ db1 with itemizations := coll2 }, .vObj itmFs)

/-- The line-item loop of `Orders.process_itemizations`.  The update only
reads the order id and source, which the in-place line-item mutation does
not touch, so the order argument stays fixed during the loop. -/
def processItemizationsGo (db : SqDb) (order : List (String × Value))
    (props : List (String × Value)) (done : List Value) :
    List Value → Except String (SqDb × List Value)
  | [] => pure (db, done.reverse)
  | itm :: rest => do
      let (db2, itm2) ← updateItemization db itm order props
      processItemizationsGo db2 order props (itm2 :: done) rest

/-- `Orders.process_itemizations`. -/
def processItemizations (db : SqDb) (order : List (String × Value)) :
    Except String (SqDb × List (String × Value)) := do
  let props ← makeOrderProperties order
  let props := setKey props "itemization_type" (.vStr "sale")
  match lookupKey order "line_items" with
  | none => pure (db, order)
  | some lv => do
      let items ← asList lv
      let (db2, items2) ← processItemizationsGo db order props [] items
      pure (db2, setKey order "line_items" (.vList items2))

/-- `Orders.update_refund`: decode and upsert into square_refunds. -/
def updateRefund (decode : String → Int) (db : SqDb) (obj : Value) :
    Except String SqDb := do
  let r ← decodeRefundVal decode obj
  let ids ← asStr (← r.getField "id")
  pure { db with refunds := setKey db.refunds ids r }

/-- One refund of `Orders.process_refunds`: look the payment refund up under
`"<tender_id>_<refund_id>"`; on success store it; on error look the stored
tender up and tolerate CASH and OTHER tender types (debug log only),
otherwise log the first error detail at ERROR level. -/
def processOneRefund (decode : String → Int) (refApi : String → ApiResult)
    (oidV : Value) (db : SqDb) (refund : Value) : Except String SqDb := do
  let rtidV ← refund.getField "tender_id"
  let ridV ← refund.getField "id"
  let refundId := pyStr rtidV ++ "_" ++ pyStr ridV
  match refApi refundId with
  | .success body => do
      let r ← body.getField "refund"
      updateRefund decode db r
  | .failure errs => do
      -- find_one({"_id": refund_tender_id}); a non-string id matches nothing
      let found := match rtidV with
        | .vStr s => lookupKey db.tenders s
        | _ => none
      match found with
      | some tdoc =>
          if pyTruthy tdoc then do
            let ty ← tdoc.getField "type"
            if Value.beq ty (.vStr "CASH") then pure db
            else if Value.beq ty (.vStr "OTHER") then pure db
            else do
              let e0 ← listGet errs 0
              let detail ← e0.getField "detail"
              pure { db with errLog := db.errLog ++
                ["order: " ++ pyStr oidV ++ ", " ++ pyStr detail] }
          else do
            let e0 ← listGet errs 0
            let detail ← e0.getField "detail"
            pure { db with errLog := db.errLog ++
              ["order: " ++ pyStr oidV ++ ", " ++ pyStr detail] }
      | none => do
          let e0 ← listGet errs 0
          let detail ← e0.getField "detail"
          pure { db with errLog := db.errLog ++
            ["order: " ++ pyStr oidV ++ ", " ++ pyStr detail] }

/-- `Orders.process_refunds`. -/
def processRefunds (decode : String → Int) (refApi : String → ApiResult)
    (db : SqDb) (order : List (String × Value)) : Except String SqDb := do
  let oidV ← getFieldFs order "_id"
  match lookupKey order "refunds" with
  | none => pure db
  | some rv => do
      let rs ← asList rv
      rs.foldlM (processOneRefund decode refApi oidV) db

/-- The return-line-item loop of `Orders.process_returns`. -/
def processReturnsGo (db : SqDb) (order : List (String × Value))
    (done : List Value) : List Value → Except String (SqDb × List Value)
  | [] => pure (db, done.reverse)
  | retV :: rest => do
      let rfs ← asObj retV
      let props ← makeOrderProperties order
      let props := setKey props "itemization_type" (.vStr "return")
      let soid ← getFieldFs rfs "source_order_id"
      let props := setKey props "source_order_id" soid
      let (db2, ret2) ← (match lookupKey rfs "return_line_items" with
        | none => pure (db, Value.vObj rfs)
        | some rliv => do
            let items ← asList rliv
            let (dbx, items2) ← processItemizationsGo db order props [] items
            pure (dbx, Value.vObj (setKey rfs "return_line_items" (.vList items2))))
      processReturnsGo db2 order (ret2 :: done) rest

/-- `Orders.process_returns` (`order.get("returns", [])`). -/
def processReturns (db : SqDb) (order : List (String × Value)) :
    Except String (SqDb × List (String × Value)) :=
  match lookupKey order "returns" with
  | none => pure (db, order)
  | some rv => do
      let rets ← asList rv
      let (db2, rets2) ← processReturnsGo db order [] rets
      pure (db2, setKey order "returns" (.vList rets2))

/-- `Orders.apply_order_customizations`: default the source to Point of Sale. -/
def applyOrderCustomizations (order : List (String × Value)) : List (String × Value) :=
  setKey order "source"
    ((lookupKey order "source").getD (.vObj [("name", .vStr "Point of Sale")]))

/-- A stored order blocks replacement when it carries a `_fixed` field that
is not `False`: the replace filter
`{_id: id, $or: [{_fixed: {$exists: 0}}, {_fixed: False}]}` then matches
nothing, the upsert insert raises DuplicateKeyError, and the handler leaves
the collection unchanged. -/
def isFixedBlocked (doc : Value) : Bool :=
  match doc with
  | .vObj fs =>
      match lookupKey fs "_fixed" with
      | none => false
      | some fv => !Value.beq fv (.vBool false)
  | _ => false

/-- The guarded replace of `Orders.update_order` (including the caught
DuplicateKeyError for fixed orders). -/
def updateOrderDb (coll : List (String × Value)) (oid : String) (doc : Value) :
    List (String × Value) :=
  match lookupKey coll oid with
  | some old => if isFixedBlocked old then coll else setKey coll oid doc
  | none => setKey coll oid doc

/-- `Orders.update_order`: decode, set `_id`, refine the state, apply the
customizations, process the property blocks (which mutate the embedded
tenders, fulfillments, line items and return line items and write the
side collections), then replace the stored order unless it is fixed. -/
def updateOrder (decode : String → Int) (payApi refApi : String → ApiResult)
    (db : SqDb) (ov : Value) : Except String (SqDb × Value) := do
  let fs0 ← asObj ov
  let fs1 ← decodeOrderFields decode fs0
  let oidV ← getFieldFs fs1 "id"
  let fs2 := setKey fs1 "_id" oidV
  -- logging formats updated_at.isoformat()
  let _ ← ensureDT ((lookupKey fs2 "updated_at").getD .vNone)
  let st ← getOrderState fs2
  let fs3 := setKey fs2 "state" (st.getD .vNone)
  let fs4 := applyOrderCustomizations fs3
  let (db1, fs5) ← processTenders decode payApi db fs4
  let (db2, fs6) ← processFulfillments db1 fs5
  let (db3, fs7) ← processItemizations db2 fs6
  let db4 ← processRefunds decode refApi db3 fs7
  let (db5, fs8) ← processReturns db4 fs7
  let oid ← asStr oidV
  pure ({ db5 with orders := updateOrderDb db5.orders oid (.vObj fs8) }, .vObj fs8)


/-! ## Catalog (src/squaredown/catalog.py) -/

/-- `Catalog.get_object_type`. -/
def getObjectType (collectionName : String) : Option String :=
  if collectionName = "square_catalog_categories" then some "CATEGORY"
  else if collectionName = "square_catalog_items" then some "ITEM"
  else if collectionName = "square_catalog_item_variations" then some "ITEM_VARIATION"
  else if collectionName = "square_catalog_taxes" then some "TAX"
  else if collectionName = "square_catalog_discounts" then some "DISCOUNT"
  else if collectionName = "square_catalog_modifiers" then some "MODIFIER"
  else if collectionName = "square_catalog_modifier_lists" then some "MODIFIER_LIST"
  else none

/-- Modelled from the spec: `decode_catalog_obj` is provided by the installed
interface library and is not under src/; the spec says domain documents are
"the source API's JSON representation, decoded (RFC3339 strings →
timestamps)", so the created_at and updated_at timestamp strings are decoded
when present. -/
def decodeCatalogObj (decode : String → Int) (fs : List (String × Value)) :
    Except String (List (String × Value)) := do
  let fs ← decodeTsField decode fs "created_at"
  let fs ← decodeTsField decode fs "updated_at"
  pure fs

/-- `Catalog.apply_object_customizations`: flatten the `<type>_data` subobject
into the top level and drop the subobject field.  `self.object_type` is
`get_object_type(collection_name)`; when it is None, `.lower()` raises. -/
def applyObjectCustomizations (collectionName : String)
    (fs : List (String × Value)) : Except String (List (String × Value)) := do
  match getObjectType collectionName with
  | none => .error "AttributeError"
  | some ot =>
      let fieldName := pyLower ot ++ "_data"
      let dv ← getFieldFs fs fieldName
      let dfs ← asObj dv
      let fs2 := updateFields fs dfs
      pure (removeKey fs2 fieldName)

/-- `Catalog.update_obj`: decode, set `_id` from `id`, apply the
customizations, and upsert into the catalog collection. -/
def catalogUpdateObj (decode : String → Int) (collectionName : String)
    (coll : List (String × Value)) (ov : Value) :
    Except String (List (String × Value) × Value) := do
  let fs0 ← asObj ov
  let fs1 ← decodeCatalogObj decode fs0
  let oidV ← getFieldFs fs1 "id"
  let fs2 := setKey fs1 "_id" oidV
  -- logging formats updated_at.isoformat()
  let _ ← ensureDT ((lookupKey fs2 "updated_at").getD .vNone)
  let fs3 ← applyObjectCustomizations collectionName fs2
  let oid ← asStr oidV
  pure (setKey coll oid (.vObj fs3), .vObj fs3)

/-! ## The pull loops (src/squaredown/orders.py, catalog.py)

The retrieval (timespan plus Square search) is abstracted: the loops take the
list of retrieved records.  The configuration properties are a `ConfigState`
(`Connector.__init__` builds `Config(config_name)` with `auto_update = True`);
`self.props.last_updated = ...` runs `Config.__setattr__` and
`self.props.update()` persists the property set.
-/

/-- Stable ascending sort by the raw `updated_at` value, modelling
`sorted(objects, key=lambda obj: obj["updated_at"])`; the key values the
Square API returns are RFC 3339 strings, anything else fails the comparison. -/
def insertByKey (x : String × Value) : List (String × Value) → List (String × Value)
  | [] => [x]
  | y :: ys => if charsLe x.1.data y.1.data then x :: y :: ys else y :: insertByKey x ys

/-- See `insertByKey`. -/
def pySortByUpdatedAt (objs : List Value) : Except String (List Value) := do
  let keyed ← objs.mapM (fun o => do
      let k ← o.getField "updated_at"
      let s ← asStr k
      pure (s, o))
  pure ((keyed.foldr insertByKey []).map Prod.snd)

/-- State threaded through `Catalog.pull`. -/
structure CatalogPullState where
  coll : List (String × Value)
  props : ConfigState
  updateCount : Nat

/-- Advance the watermark: `self.props.last_updated = updated_at`,
`self.props.last_id = obj_id`, `self.props.update()`; the first two persist
as well whenever `auto_update` is truthy. -/
def advanceWatermark (props : ConfigState) (ua : Value) (oidV : Value) : ConfigState :=
  configUpdate (configSetattr (configSetattr props "last_updated" ua) "last_id" oidV)

/-- The duplicate check shared by both pull loops: only before the first
update, and only when both the id and the decoded timestamp equal the stored
watermark. -/
def isDupOfLast (props : ConfigState) (updateCount : Nat) (oidV : Value) (ua : Value) :
    Bool :=
  updateCount == 0 &&
    Value.beq oidV ((configGetattr props "last_id").getD .vNone) &&
    Value.beq ua ((configGetattr props "last_updated").getD .vNone)

/-- The loop of `Catalog.pull` over the (already sorted) objects. -/
def catalogPullLoop (decode : String → Int) (collectionName : String)
    (saveLast : Bool) : List Value → CatalogPullState → Except String CatalogPullState
  | [], st => pure st
  | o :: os, st => do
      let oidV ← o.getField "id"
      let uaV ← o.getField "updated_at"
      let ua ← (match uaV with
        | .vStr s => pure (Value.vDT (decode s))
        | _ => .error "TypeError")
      if isDupOfLast st.props st.updateCount oidV ua then
        catalogPullLoop decode collectionName saveLast os st
      else do
        let (coll2, _) ← catalogUpdateObj decode collectionName st.coll o
        let st1 : CatalogPullState :=
          { st with coll := coll2, updateCount := st.updateCount + 1 }
        let st2 := if saveLast then
            { st1 with props := advanceWatermark st1.props ua oidV }
          else st1
        catalogPullLoop decode collectionName saveLast os st2

/-- `Catalog.pull`, given the retrieved objects: sort by `updated_at`, then
run the loop.  (The retrieval itself — timespan plus object search — happens
against the Square API and is abstracted away; an empty retrieval skips the
loop, which coincides with looping over an empty sort.) -/
def catalogPull (decode : String → Int) (collectionName : String) (saveLast : Bool)
    (objs : List Value) (st : CatalogPullState) : Except String CatalogPullState := do
  let sortedObjs ← pySortByUpdatedAt objs
  catalogPullLoop decode collectionName saveLast sortedObjs st

/-- State threaded through `Orders.pull`. -/
structure OrdersPullState where
  db : SqDb
  props : ConfigState
  updateCount : Nat

/-- `Orders.save_raw_order`: set `_id` from `id` on the raw order and upsert
it into raw_square_orders. -/
def saveRawOrder (db : SqDb) (o : Value) : Except String (SqDb × Value) := do
  let fs ← asObj o
  let oidV ← getFieldFs fs "id"
  let fs2 := setKey fs "_id" oidV
  let oid ← asStr oidV
  pure ({ db with rawOrders := setKey db.rawOrders oid (.vObj fs2) }, .vObj fs2)

/-- The loop of `Orders.pull` over the retrieved orders: save the raw order
(unless reprocessing from the raw collection), skip a duplicate of the stored
watermark while nothing has been updated yet, otherwise update the order and,
when `save_last` is set, advance and persist the watermark. -/
def ordersPullLoop (decode : String → Int) (payApi refApi : String → ApiResult)
    (saveLast fromRaw : Bool) :
    List Value → OrdersPullState → Except String OrdersPullState
  | [], st => pure st
  | o :: os, st => do
      let (st1, o1) ← (if fromRaw then pure (st, o) else do
        let (db2, o2) ← saveRawOrder st.db o
        pure ({ st with db := db2 }, o2))
      let oidV ← o1.getField "id"
      let uaV ← o1.getField "updated_at"
      let ua ← (match uaV with
        | .vStr s => pure (Value.vDT (decode s))
        | _ => .error "TypeError")
      if isDupOfLast st1.props st1.updateCount oidV ua then
        ordersPullLoop decode payApi refApi saveLast fromRaw os st1
      else do
        let (db2, _) ← updateOrder decode payApi refApi st1.db o1
        let st2 : OrdersPullState :=
          { st1 with db := db2, updateCount := st1.updateCount + 1 }
        let st3 := if saveLast then
            { st2 with props := advanceWatermark st2.props ua oidV }
          else st2
        ordersPullLoop decode payApi refApi saveLast fromRaw os st3


/-! ## Pagination (src/squaredown/i_square.py, payouts.py)

The endpoint is a function from the optional cursor to a fixed result
(per-cursor responses are fixed).  The while loops run on fuel; exhausting
the fuel (`.ok none`) means the loop has not terminated within that many
iterations.
-/

/-- The while loop of `SquareInterface.search`: follow `body["cursor"]`
while it is truthy; on an error response log and retry with the unchanged
cursor. -/
def searchLoop (api : Option Value → ApiResult) (objType : String) :
    Nat → List Value → Value → Except String (Option (List Value))
  | 0, _, _ => .ok none
  | n + 1, acc, cursor =>
      match api (some cursor) with
      | .success body => do
          let bodyFs ← asObj body
          let items ← getFieldFs bodyFs objType >>= asList
          let acc2 := acc ++ items
          let cur2 := (lookupKey bodyFs "cursor").getD .vNone
          if pyTruthy cur2 then searchLoop api objType n acc2 cur2
          else .ok (some acc2)
      | .failure _ =>
          searchLoop api objType n acc cursor

/-- `SquareInterface.search`: only the orders API is wired up, any other
object type returns the empty list; an initial error logs and returns the
empty list. -/
def search (api : Option Value → ApiResult) (objType : String) (fuel : Nat) :
    Except String (Option (List Value)) :=
  if objType = "orders" then
    match api none with
    | .success body => do
        let bodyFs ← asObj body
        let items ← getFieldFs bodyFs objType >>= asList
        let cur := (lookupKey bodyFs "cursor").getD .vNone
        if pyTruthy cur then searchLoop api objType fuel items cur
        else .ok (some items)
    | .failure _ => .ok (some [])
  else .ok (some [])

/-- A finite success-only cursor chain of page item lists starting at cursor
`c`: each page body holds its items under `objType`; the chain follows
truthy cursors and the last body has no truthy cursor. -/
def SearchChain (api : Option Value → ApiResult) (objType : String) :
    Option Value → List (List Value) → Prop
  | _, [] => False
  | c, items :: rest =>
      ∃ bfs : List (String × Value),
        api c = .success (.vObj bfs) ∧
        lookupKey bfs objType = some (.vList items) ∧
        (if pyTruthy ((lookupKey bfs "cursor").getD .vNone) then
          SearchChain api objType (some ((lookupKey bfs "cursor").getD .vNone)) rest
        else rest = [])

/-- The while loop of `Payouts.read`: the next page is requested by calling
`list_payouts(begin_time, end_time)` again WITHOUT the cursor, so under
fixed responses the result never changes.  An error response mid-loop has a
non-empty error body and `body["payouts"]` raises. -/
def payoutsReadLoop (api : Option Value → ApiResult) :
    Nat → List Value → Value → Except String (Option (List Value))
  | 0, _, _ => .ok none
  | n + 1, acc, bodyV =>
      match bodyV with
      | .vObj bfs =>
          if bfs.isEmpty then .ok (some acc)
          else do
            let items ← getFieldFs bfs "payouts" >>= asList
            let acc2 := acc ++ items
            let cur := (lookupKey bfs "cursor").getD .vNone
            if pyTruthy cur then
              match api none with
              | .success b2 => payoutsReadLoop api n acc2 b2
              | .failure _ => .error "KeyError"
            else .ok (some acc2)
      | _ => .error "TypeError"

/-- `Payouts.read` (given the endpoint as a function of the cursor; the
implementation never passes one). -/
def payoutsRead (api : Option Value → ApiResult) (fuel : Nat) :
    Except String (Option (List Value)) :=
  match api none with
  | .success body => payoutsReadLoop api fuel [] body
  | .failure _ => .ok (some [])

/-- The while loop of `PayoutEntries.read`: here the cursor IS passed to the
next `list_payout_entries` call. -/
def payoutEntriesReadLoop (api : Option Value → ApiResult) :
    Nat → List Value → Value → Except String (Option (List Value))
  | 0, _, _ => .ok none
  | n + 1, acc, bodyV =>
      match bodyV with
      | .vObj bfs =>
          if bfs.isEmpty then .ok (some acc)
          else do
            let items ← getFieldFs bfs "payout_entries" >>= asList
            let acc2 := acc ++ items
            let cur := (lookupKey bfs "cursor").getD .vNone
            if pyTruthy cur then
              match api (some cur) with
              | .success b2 => payoutEntriesReadLoop api n acc2 b2
              | .failure _ => .error "KeyError"
            else .ok (some acc2)
      | _ => .error "TypeError"

/-- `PayoutEntries.read`. -/
def payoutEntriesRead (api : Option Value → ApiResult) (fuel : Nat) :
    Except String (Option (List Value)) :=
  match api none with
  | .success body => payoutEntriesReadLoop api fuel [] body
  | .failure _ => .ok (some [])

/-- A fixed two-page payout endpoint: the first page carries a cursor to the
second, the second has none. -/
def payoutsApiTwoPages : Option Value → ApiResult
  | none => .success (.vObj [("payouts", .vList [.vStr "p1"]), ("cursor", .vStr "CUR")])
  | some _ => .success (.vObj [("payouts", .vList [.vStr "p2"])])


/-! ## ReportData (src/squaredown/report_data.py)

The aggregation pipelines run inside MongoDB; each `set_*` method is
embedded as a function of the aggregation result list it consumes, mirroring
exactly the Python code that folds those results into `self.data`.  A report
row is the `{"sales": _, "refunds": _, "net": _}` triple; sections are keyed
row lists.  Rows the code indexes directly always come from `init_data`, so
the in-place row modifier is total; the dynamically named collected rows are
indexed without initialization, so those setters return `none` on the
KeyError the Python would raise.
-/

/-- One `{"sales", "refunds", "net"}` row. -/
structure Row where
  sales : Int
  refunds : Int
  net : Int
deriving DecidableEq, Repr

/-- The zero row used throughout `init_data`. -/
def Row.zero : Row := ⟨0, 0, 0⟩

/-- The report data: the four row sections (the timespan strings are kept
but uninteresting). -/
structure RData where
  tsStart : String
  tsEnd : String
  summary : List (String × Row)
  collected : List (String × Row)
  categorySales : List (String × Row)
  cost : List (String × Row)
deriving DecidableEq, Repr

/-- Modify the row at `k` in place; the report code only does this for keys
created by `init_data`, where the row is present. -/
def modifyRow (sec : List (String × Row)) (k : String) (f : Row → Row) :
    List (String × Row) :=
  sec.map (fun kv => if kv.1 = k then (kv.1, f kv.2) else kv)

/-- Row at `k` (the direct `data[h][k]` reads of the report code; all on
keys present since `init_data`). -/
def rowOf (sec : List (String × Row)) (k : String) : Row :=
  (lookupKey sec k).getD Row.zero

/-- `ReportData.init_data`. -/
def initData (start endT : String) : RData :=
  { tsStart := start
    tsEnd := endT
    summary :=
      [("gross", Row.zero), ("discount", Row.zero), ("net", Row.zero),
       ("tax", Row.zero), ("tip", Row.zero), ("gift_card", Row.zero),
       ("partial_refund", Row.zero), ("fee", Row.zero),
       ("gift_card_load", Row.zero), ("net_total", Row.zero)]
    collected :=
      [("total", Row.zero), ("cash", Row.zero), ("card", Row.zero),
       ("square_gift_card", Row.zero), ("buy_now_pay_later", Row.zero),
       ("other", Row.zero), ("wallet", Row.zero)]
    categorySales :=
      [("total", Row.zero), ("uncategorized", Row.zero)]
    cost :=
      [("total", Row.zero), ("uncategorized", Row.zero)] }

/-- The single grouped document produced by the sales pipeline. -/
structure SalesAgg where
  gross : Int
  disc : Int
  net : Int
  tax : Int
  tip : Int

/-- `ReportData.set_sales_data` on the aggregation results. -/
def setSalesData (d : RData) (results : List SalesAgg) : RData :=
  match results with
  | [] => d
  | r :: _ =>
      let s1 := modifyRow d.summary "gross" (fun row => { row with sales := r.gross })
      let s2 := modifyRow s1 "discount" (fun row => { row with sales := -r.disc })
      let s3 := modifyRow s2 "net" (fun row => { row with sales := r.net })
      let s4 := modifyRow s3 "tax" (fun row => { row with sales := r.tax })
      let s5 := modifyRow s4 "tip" (fun row => { row with sales := r.tip })
      { d with summary := s5 }

/-- The single grouped document produced by the gift card sales pipeline. -/
structure GiftCardAgg where
  gross : Int
  disc : Int
  tax : Int
  tip : Int

/-- `ReportData.set_gift_card_sales_data`. -/
def setGiftCardSalesData (d : RData) (results : List GiftCardAgg) : RData :=
  match results with
  | [] => d
  | r :: _ =>
      let s1 := modifyRow d.summary "gift_card" (fun row => { row with sales := r.gross })
      let s2 := modifyRow s1 "tip" (fun row => { row with sales := row.sales + r.tip })
      let s3 := modifyRow s2 "discount" (fun row => { row with sales := row.sales - r.disc })
      let s4 := modifyRow s3 "net" (fun row => { row with sales := row.sales - r.disc })
      { d with summary := s4 }

/-- `ReportData.set_processing_fee` (credit card fees, then gift card load
fees; each pipeline groups to a single amount). -/
def setProcessingFee (d : RData) (ccResults : List Int) (gcLoadResults : List Int) :
    RData :=
  let d1 := match ccResults with
    | [] => d
    | amt :: _ =>
        let s1 := modifyRow d.summary "fee" (fun row => { row with sales := -amt })
        { d with summary := s1 }
  match gcLoadResults with
  | [] => d1
  | amt :: _ =>
      let s2 := modifyRow d1.summary "gift_card_load" (fun row => { row with sales := amt })
      { d1 with summary := s2 }

/-- Python falsiness of a grouped `_id` (None or empty string becomes
"uncategorized" after an error log). -/
def categoryNameOf : Option String → String
  | none => "uncategorized"
  | some s => if s = "" then "uncategorized" else s

/-- The category loop of `set_category_sales_data` (initialize missing
category rows to zero, then set the sales amount). -/
def categorySalesLoop (sec : List (String × Row)) (total : Int) :
    List (Option String × Int) → List (String × Row) × Int
  | [] => (sec, total)
  | (idOpt, amt) :: rest =>
      let name := categoryNameOf idOpt
      let sec1 := if (lookupKey sec name).isSome then sec else setKey sec name Row.zero
      let sec2 := modifyRow sec1 name (fun row => { row with sales := amt })
      categorySalesLoop sec2 (total + amt) rest

/-- `ReportData.set_category_sales_data`. -/
def setCategorySalesData (d : RData) (results : List (Option String × Int)) : RData :=
  let st := categorySalesLoop d.categorySales 0 results
  let sec2 := modifyRow st.1 "total" (fun row => { row with sales := st.2 })
  { d with categorySales := sec2 }

/-- The tender loop of `set_collected_sales_data`: the collected section has
only the fixed rows of `init_data`; an unknown tender name raises KeyError. -/
def collectedSalesLoop (sec : List (String × Row)) (total : Int) :
    List (String × Int) → Option (List (String × Row) × Int)
  | [] => some (sec, total)
  | (name, amt) :: rest =>
      match lookupKey sec name with
      | none => none
      | some _ =>
          collectedSalesLoop (modifyRow sec name (fun row => { row with sales := amt }))
            (total + amt) rest

/-- `ReportData.set_collected_sales_data`. -/
def setCollectedSalesData (d : RData) (results : List (String × Int)) : Option RData :=
  match collectedSalesLoop d.collected 0 results with
  | none => none
  | some (sec, total) =>
      let sec2 := modifyRow sec "total" (fun row => { row with sales := total })
      some { d with collected := sec2 }

/-- `ReportData.set_service_charge_data`: only Gratuity service charges are
handled (added to tip sales); anything else is logged. -/
def setServiceChargeData (d : RData) (results : List (Option String × Int)) : RData :=
  results.foldl (fun acc r =>
    if r.1 = some "Gratuity" then
      let s1 := modifyRow acc.summary "tip" (fun row => { row with sales := row.sales + r.2 })
      { acc with summary := s1 }
    else acc) d

/-- The single grouped document of the returns refund pipeline. -/
structure RefundAgg where
  gross : Int
  net : Int
  disc : Int
  tax : Int
  tip : Int

/-- `ReportData.set_refund_data_returns`. -/
def setRefundDataReturns (d : RData) (results : List RefundAgg) : RData :=
  match results with
  | [] => d
  | r :: _ =>
      let s1 := modifyRow d.summary "gross" (fun row => { row with refunds := -r.gross })
      let s2 := modifyRow s1 "discount" (fun row => { row with refunds := r.disc })
      let s3 := modifyRow s2 "net" (fun row => { row with refunds := -r.net })
      let s4 := modifyRow s3 "tax" (fun row => { row with refunds := -r.tax })
      let s5 := modifyRow s4 "tip" (fun row => { row with refunds := -r.tip })
      { d with summary := s5 }

/-- `ReportData.set_refund_data_returns_custom`. -/
def setRefundDataReturnsCustom (d : RData) (results : List Int) : RData :=
  match results with
  | [] => d
  | amt :: _ =>
      let s1 := modifyRow d.summary "partial_refund" (fun row => { row with refunds := -amt })
      { d with summary := s1 }

/-- The single grouped document of the tip-only refund pipeline. -/
structure TipsRefundAgg where
  disc : Int
  tax : Int
  tip : Int

/-- `ReportData.set_refund_data_tips`. -/
def setRefundDataTips (d : RData) (results : List TipsRefundAgg) : RData :=
  match results with
  | [] => d
  | r :: _ =>
      let s1 := modifyRow d.summary "discount" (fun row => { row with refunds := row.refunds + r.disc })
      let s2 := modifyRow s1 "net" (fun row => { row with refunds := row.refunds + r.disc })
      let s3 := modifyRow s2 "tax" (fun row => { row with refunds := row.refunds - r.tax })
      let s4 := modifyRow s3 "tip" (fun row => { row with refunds := row.refunds - r.tip })
      { d with summary := s4 }

/-- `ReportData.set_refund_data` (the three refund sub-steps in order). -/
def setRefundData (d : RData) (returns : List RefundAgg) (custom : List Int)
    (tips : List TipsRefundAgg) : RData :=
  setRefundDataTips (setRefundDataReturnsCustom (setRefundDataReturns d returns) custom) tips

/-- `ReportData.set_processing_fee_refund`. -/
def setProcessingFeeRefund (d : RData) (results : List Int) : RData :=
  match results with
  | [] => d
  | amt :: _ =>
      let s1 := modifyRow d.summary "fee" (fun row => { row with refunds := -amt })
      { d with summary := s1 }

/-- The category loop of `set_category_refund_data`. -/
def categoryRefundLoop (sec : List (String × Row)) (total : Int) :
    List (Option String × Int) → List (String × Row) × Int
  | [] => (sec, total)
  | (idOpt, amt) :: rest =>
      let name := categoryNameOf idOpt
      let sec1 := if (lookupKey sec name).isSome then sec else setKey sec name Row.zero
      let sec2 := modifyRow sec1 name (fun row => { row with refunds := -amt })
      categoryRefundLoop sec2 (total + amt) rest

/-- `ReportData.set_category_refund_data`. -/
def setCategoryRefundData (d : RData) (results : List (Option String × Int)) : RData :=
  let st := categoryRefundLoop d.categorySales 0 results
  let sec2 := modifyRow st.1 "total" (fun row => { row with refunds := -st.2 })
  { d with categorySales := sec2 }

/-- The tender loop of `set_collected_refund_data` (again, unknown tender
names raise KeyError). -/
def collectedRefundLoop (sec : List (String × Row)) (total : Int) :
    List (String × Int) → Option (List (String × Row) × Int)
  | [] => some (sec, total)
  | (name, amt) :: rest =>
      match lookupKey sec name with
      | none => none
      | some _ =>
          collectedRefundLoop (modifyRow sec name (fun row => { row with refunds := -amt }))
            (total + amt) rest

/-- `ReportData.set_collected_refund_data`. -/
def setCollectedRefundData (d : RData) (results : List (String × Int)) : Option RData :=
  match collectedRefundLoop d.collected 0 results with
  | none => none
  | some (sec, total) =>
      let sec2 := modifyRow sec "total" (fun row => { row with refunds := -total })
      some { d with collected := sec2 }

/-- The category loop of `set_cost_sales_data` ("gift card" rows skipped). -/
def costSalesLoop (sec : List (String × Row)) (total : Int) :
    List (Option String × Int) → List (String × Row) × Int
  | [] => (sec, total)
  | (idOpt, amt) :: rest =>
      if idOpt = some "gift card" then costSalesLoop sec total rest
      else
        let name := categoryNameOf idOpt
        let sec1 := if (lookupKey sec name).isSome then sec else setKey sec name Row.zero
        let sec2 := modifyRow sec1 name (fun row => { row with sales := amt })
        costSalesLoop sec2 (total + amt) rest

/-- `ReportData.set_cost_sales_data`. -/
def setCostSalesData (d : RData) (results : List (Option String × Int)) : RData :=
  let st := costSalesLoop d.cost 0 results
  let sec2 := modifyRow st.1 "total" (fun row => { row with sales := st.2 })
  { d with cost := sec2 }

/-- Overwrite the net column of every row with sales + refunds. -/
def mapNets (sec : List (String × Row)) : List (String × Row) :=
  sec.map (fun kv => (kv.1, { kv.2 with net := kv.2.sales + kv.2.refunds }))

/-- `ReportData.calculate_net`: set net_total sales and refunds from the
collected total and the fees, then recompute the net column of every row of
every section. -/
def calculateNet (d : RData) : RData :=
  let s1 := modifyRow d.summary "net_total"
    (fun row => { row with sales := (rowOf d.collected "total").sales + (rowOf d.summary "fee").sales })
  let s2 := modifyRow s1 "net_total"
    (fun row => { row with refunds := (rowOf d.collected "total").refunds + (rowOf s1 "fee").refunds })
  { d with
      summary := mapNets s2,
      collected := mapNets d.collected,
      categorySales := mapNets d.categorySales,
      cost := mapNets d.cost }

/-- The aggregation results `ReportData.get_data` consumes, one list per
pipeline, in the order the pipelines run. -/
structure ReportInputs where
  sales : List SalesAgg
  giftCard : List GiftCardAgg
  procFeeCC : List Int
  procFeeGCLoad : List Int
  categorySales : List (Option String × Int)
  collectedSales : List (String × Int)
  serviceCharges : List (Option String × Int)
  refundReturns : List RefundAgg
  refundCustom : List Int
  refundTips : List TipsRefundAgg
  procFeeRefund : List Int
  categoryRefunds : List (Option String × Int)
  collectedRefunds : List (String × Int)
  costSales : List (Option String × Int)

/-- `ReportData.get_data`: initialize, run the sales, refund and cost steps
in source order, then `calculate_net`; `none` when a collected step raises. -/
def getData (start endT : String) (inp : ReportInputs) : Option RData :=
  let d0 := initData start endT
  let d1 := setSalesData d0 inp.sales
  let d2 := setGiftCardSalesData d1 inp.giftCard
  let d3 := setProcessingFee d2 inp.procFeeCC inp.procFeeGCLoad
  let d4 := setCategorySalesData d3 inp.categorySales
  match setCollectedSalesData d4 inp.collectedSales with
  | none => none
  | some d5 =>
      let d6 := setServiceChargeData d5 inp.serviceCharges
      let d7 := setRefundData d6 inp.refundReturns inp.refundCustom inp.refundTips
      let d8 := setProcessingFeeRefund d7 inp.procFeeRefund
      let d9 := setCategoryRefundData d8 inp.categoryRefunds
      match setCollectedRefundData d9 inp.collectedRefunds with
      | none => none
      | some d10 => some (calculateNet (setCostSalesData d10 inp.costSales))



/-- A concrete set of aggregation results exercising the report pipeline. -/
def exReportInputs : ReportInputs :=
  ⟨[⟨100, 10, 90, 5, 7⟩], [], [3], [], [(some "Beer", 50)],
   [("cash", 60), ("card", 40)], [], [⟨20, 18, 2, 1, 0⟩], [], [], [],
   [(some "beer", 20)], [("card", 20)], [(some "beer", 30)]⟩

/-- The report produced from `exReportInputs`. -/
def exReportData : RData :=
  { tsStart := "s"
    tsEnd := "e"
    summary :=
      [("gross", ⟨100, -20, 80⟩), ("discount", ⟨-10, 2, -8⟩),
       ("net", ⟨90, -18, 72⟩), ("tax", ⟨5, -1, 4⟩), ("tip", ⟨7, 0, 7⟩),
       ("gift_card", ⟨0, 0, 0⟩), ("partial_refund", ⟨0, 0, 0⟩),
       ("fee", ⟨-3, 0, -3⟩), ("gift_card_load", ⟨0, 0, 0⟩),
       ("net_total", ⟨97, -20, 77⟩)]
    collected :=
      [("total", ⟨100, -20, 80⟩), ("cash", ⟨60, 0, 60⟩), ("card", ⟨40, -20, 20⟩),
       ("square_gift_card", ⟨0, 0, 0⟩), ("buy_now_pay_later", ⟨0, 0, 0⟩),
       ("other", ⟨0, 0, 0⟩), ("wallet", ⟨0, 0, 0⟩)]
    categorySales :=
      [("total", ⟨50, -20, 30⟩), ("uncategorized", ⟨0, 0, 0⟩),
       ("Beer", ⟨50, 0, 50⟩), ("beer", ⟨0, -20, -20⟩)]
    cost :=
      [("total", ⟨30, 0, 30⟩), ("uncategorized", ⟨0, 0, 0⟩),
       ("beer", ⟨30, 0, 30⟩)] }

/-! ## Repeated syncs at the database layer (for the idempotence claims) -/

/-- Upsert guarded by a blocking predicate on the stored document: the
common shape of the connector replace operations (for the catalog the
predicate is constantly false). -/
def upsertBlocked (blocked : Value → Bool) (coll : List (String × Value))
    (oid : String) (doc : Value) : List (String × Value) :=
  match lookupKey coll oid with
  | some old => if blocked old then coll else setKey coll oid doc
  | none => setKey coll oid doc

/-- One sync run at the database layer through `Orders.update_order`: the
processed documents (id, document), derived deterministically from the
source objects, upserted in order with the fixed-order guard. -/
def runOrdersSync (items : List (String × Value)) (coll : List (String × Value)) :
    List (String × Value) :=
  items.foldl (fun c it => updateOrderDb c it.1 it.2) coll

/-- One sync run at the database layer through `Catalog.update_obj` (plain
insert-or-replace keyed by the object id). -/
def runCatalogSync (items : List (String × Value)) (coll : List (String × Value)) :
    List (String × Value) :=
  items.foldl (fun c it => setKey c it.1 it.2) coll

/-- Generic sync run used to prove facts about both connectors at once. -/
def runUpserts (blocked : Value → Bool) (items : List (String × Value))
    (coll : List (String × Value)) : List (String × Value) :=
  items.foldl (fun c it => upsertBlocked blocked c it.1 it.2) coll

/-- Written from the words of the specification claim, for comparison with
`catalogPull`: the same loop, but over the objects in retrieval order (no
sorting step). -/
def catalogPullRetrievalOrder (decode : String → Int) (collectionName : String)
    (saveLast : Bool) (objs : List Value) (st : CatalogPullState) :
    Except String CatalogPullState :=
  catalogPullLoop decode collectionName saveLast objs st


/-- Whether the (optional) stored document blocks the upsert. -/
def blockedOpt (blocked : Value → Bool) : Option Value → Bool
  | none => false
  | some v => blocked v

/-- The effect of a run of guarded upserts on a single key, folded over the
documents written to that key. -/
def foldDoc (blocked : Value → Bool) : Option Value → List Value → Option Value
  | cur, [] => cur
  | cur, d :: ds =>
      foldDoc blocked (if blockedOpt blocked cur then cur else some d) ds

/-- The documents a sync run writes to key `k`, in order. -/
def docsFor (items : List (String × Value)) (k : String) : List Value :=
  (items.filter (fun it => it.1 = k)).map Prod.snd


/-! # Theorems -/

/-! ## Small helper lemmas -/

theorem beq_vStr_iff (v : Value) (s : String) :
    Value.beq v (.vStr s) = true ↔ v = .vStr s := by
  cases v <;> simp [Value.beq]

theorem countKey_pos_of_lookup_some {κ α : Type} [DecidableEq κ]
    (kvs : List (κ × α)) (k : κ) (v : α) (h : lookupKey kvs k = some v) :
    1 ≤ countKey kvs k := by
  induction kvs with
  | nil => simp [lookupKey] at h
  | cons kv rest ih =>
      obtain ⟨k₀, v₀⟩ := kv
      by_cases hk : k₀ = k
      · simp [countKey, hk]
      · simp only [lookupKey, if_neg hk] at h
        simp only [countKey, if_neg hk]
        have := ih h
        omega

/-! ## C8: Config reads and writes -/

/-- C8: reading a configuration property absent from the loaded property set
returns None (attribute access and subscripting share `__getattr__`), and
setting a non-reserved, non-underscore property stores it in the property set
and, with a truthy `auto_update`, persists the whole set keyed by the
configuration set name. -/
theorem c8_config_properties (st : ConfigState) (prop : String) (v : Value)
    (hres : prop ∉ configReserved) (hund : startsWithUnderscore prop = false)
    (hauto : pyTruthy st.autoUpdate = true) :
    (lookupKey st.props prop = none → configGetattr st prop = none) ∧
    ((configSetattr st prop v).props = setKey st.props prop v ∧
     (configSetattr st prop v).name = st.name ∧
     lookupKey (configSetattr st prop v).collection st.name =
       some ⟨st.name, setKey st.props prop v⟩) := by
  constructor
  · intro h
    unfold configGetattr
    split
    · rfl
    · exact h
  · have hcond : ¬ (prop ∈ configReserved ∨ startsWithUnderscore prop = true) := by
      intro hc
      rcases hc with hc | hc
      · exact hres hc
      · rw [hund] at hc
        exact Bool.false_ne_true hc
    unfold configSetattr
    rw [if_neg hcond]
    simp only [hauto, if_pos rfl]
    refine ⟨rfl, rfl, ?_⟩
    unfold configUpdate
    exact lookupKey_setKey_self _ _ _

/-- C8 witness at a concrete configuration state. -/
theorem c8_config_properties_witness :
    configGetattr ⟨some "square_orders", [("x", .vInt 1)], .vBool true, []⟩ "last_id" = none ∧
    (configSetattr ⟨some "square_orders", [("x", .vInt 1)], .vBool true, []⟩
        "last_id" (.vStr "A")).props = setKey [("x", .vInt 1)] "last_id" (.vStr "A") ∧
    lookupKey (configSetattr ⟨some "square_orders", [("x", .vInt 1)], .vBool true, []⟩
        "last_id" (.vStr "A")).collection (some "square_orders") =
      some ⟨some "square_orders", setKey [("x", .vInt 1)] "last_id" (.vStr "A")⟩ := by
  have h := c8_config_properties ⟨some "square_orders", [("x", .vInt 1)], .vBool true, []⟩
    "last_id" (.vStr "A") (by decide) (by decide) rfl
  exact ⟨h.1 rfl, h.2.1, h.2.2.2⟩

/-! ## C10: Orders.get_order_state -/

theorem firstNonCaptured_all_captured (ts : List Value)
    (h : ∀ tt ∈ ts, ∃ cd, tt.getField "card_details" = .ok cd ∧
        cd.getField "status" = .ok (.vStr "CAPTURED")) :
    firstNonCaptured ts = .ok none := by
  induction ts with
  | nil => rfl
  | cons t rest ih =>
      obtain ⟨cd, hcd, hst⟩ := h t (List.mem_cons_self t rest)
      simp only [firstNonCaptured, hcd, hst, Bind.bind, Except.bind]
      have hb : Value.beq (.vStr "CAPTURED") (.vStr "CAPTURED") = true := by decide
      simp only [hb, if_pos rfl]
      exact ih (fun tt htt => h tt (List.mem_cons_of_mem _ htt))

theorem firstNonCaptured_finds (pre post : List Value) (t : Value) (s : String)
    (hpre : ∀ p ∈ pre, ∃ cd, p.getField "card_details" = .ok cd ∧
        cd.getField "status" = .ok (.vStr "CAPTURED"))
    (ht : ∃ cd, t.getField "card_details" = .ok cd ∧
        cd.getField "status" = .ok (.vStr s))
    (hs : s ≠ "CAPTURED") :
    firstNonCaptured (pre ++ t :: post) = .ok (some (.vStr s)) := by
  induction pre with
  | nil =>
      obtain ⟨cd, hcd, hst⟩ := ht
      simp only [List.nil_append, firstNonCaptured, hcd, hst, Bind.bind, Except.bind]
      have hb : Value.beq (.vStr s) (.vStr "CAPTURED") = false := by
        simp [Value.beq, hs]
      simp [hb]
  | cons p rest ih =>
      obtain ⟨cd, hcd, hst⟩ := hpre p (List.mem_cons_self p rest)
      simp only [List.cons_append, firstNonCaptured, hcd, hst, Bind.bind, Except.bind]
      have hb : Value.beq (.vStr "CAPTURED") (.vStr "CAPTURED") = true := by decide
      simp only [hb, if_pos rfl]
      exact ih (fun pp hpp => hpre pp (List.mem_cons_of_mem _ hpp))

/-- C10: `get_order_state` returns the state unchanged unless it is OPEN; for
OPEN orders it refines the state from the tenders: OPEN_TENDER_MISSING with
no tenders, OPEN_TENDER_<status> from the first tender whose card status is
not CAPTURED, and OPEN when every tender is captured.  The source is a pure
read of the order (embedded as a function), so the order is not modified. -/
theorem c10_get_order_state (order : List (String × Value)) (ts pre post : List Value)
    (t : Value) (s : String) :
    ((∀ sv, lookupKey order "state" = some sv → sv ≠ .vStr "OPEN") →
        getOrderState order = .ok (lookupKey order "state")) ∧
    (lookupKey order "state" = some (.vStr "OPEN") →
      ((lookupKey order "tenders" = none ∨ lookupKey order "tenders" = some (.vList []) →
        getOrderState order = .ok (some (.vStr "OPEN_TENDER_MISSING"))) ∧
      (lookupKey order "tenders" = some (.vList ts) → ts ≠ [] →
        (∀ tt ∈ ts, ∃ cd, tt.getField "card_details" = .ok cd ∧
            cd.getField "status" = .ok (.vStr "CAPTURED")) →
        getOrderState order = .ok (some (.vStr "OPEN"))) ∧
      (lookupKey order "tenders" = some (.vList (pre ++ t :: post)) →
        (∀ p ∈ pre, ∃ cd, p.getField "card_details" = .ok cd ∧
            cd.getField "status" = .ok (.vStr "CAPTURED")) →
        (∃ cd, t.getField "card_details" = .ok cd ∧
            cd.getField "status" = .ok (.vStr s)) →
        s ≠ "CAPTURED" →
        getOrderState order = .ok (some (.vStr ("OPEN_TENDER_" ++ s)))))) := by
  constructor
  · intro hne
    unfold getOrderState
    cases hst : lookupKey order "state" with
    | none => rfl
    | some sv =>
        have : Value.beq sv (.vStr "OPEN") = false := by
          cases hbv : Value.beq sv (.vStr "OPEN")
          · rfl
          · exact absurd ((beq_vStr_iff sv "OPEN").mp hbv) (hne sv hst)
        simp [this]
  · intro hopen
    have hcond : (pyTruthy (.vStr "OPEN") && Value.beq (.vStr "OPEN") (.vStr "OPEN")) = true := by
      decide
    refine ⟨?_, ?_, ?_⟩
    · intro htd
      unfold getOrderState
      rw [hopen]
      rcases htd with htd | htd
      · simp [hcond, htd, Value.beq, pyTruthy]
      · simp [hcond, htd, Value.beq, pyTruthy]
    · intro htd hts hall
      unfold getOrderState
      rw [hopen]
      have htr : pyTruthy (.vList ts) = true := by
        cases ts with
        | nil => exact absurd rfl hts
        | cons a l => simp [pyTruthy]
      simp only [htd, htr, Value.beq, pyTruthy]
      simp only [show (("OPEN" ≠ "") : Bool) = true from by decide,
        show ("OPEN" == "OPEN") = true from by decide, Bool.and_self, if_pos rfl]
      have htr2 : (!ts.isEmpty) = true := by simpa [pyTruthy] using htr
      simp [htr2, Bind.bind, Except.bind, firstNonCaptured_all_captured ts hall]
    · intro htd hpre ht hs
      unfold getOrderState
      rw [hopen]
      have htr : pyTruthy (.vList (pre ++ t :: post)) = true := by
        simp [pyTruthy]
      simp only [htd, htr, Value.beq, pyTruthy]
      simp only [show (("OPEN" ≠ "") : Bool) = true from by decide,
        show ("OPEN" == "OPEN") = true from by decide, Bool.and_self, if_pos rfl]
      have htr2 : (!(pre ++ t :: post).isEmpty) = true := by simp
      simp [htr2, Bind.bind, Except.bind, pyStr, firstNonCaptured_finds pre post t s hpre ht hs]

/-- C10 witness: a COMPLETED order, an OPEN order without tenders, an OPEN
order with a captured tender, and an OPEN order with an AUTHORIZED tender. -/
theorem c10_get_order_state_witness :
    getOrderState [("state", .vStr "COMPLETED")] = .ok (some (.vStr "COMPLETED")) ∧
    getOrderState [("state", .vStr "OPEN")] = .ok (some (.vStr "OPEN_TENDER_MISSING")) ∧
    getOrderState [("state", .vStr "OPEN"),
      ("tenders", .vList [.vObj [("card_details", .vObj [("status", .vStr "CAPTURED")])]])] =
      .ok (some (.vStr "OPEN")) ∧
    getOrderState [("state", .vStr "OPEN"),
      ("tenders", .vList [.vObj [("card_details", .vObj [("status", .vStr "AUTHORIZED")])]])] =
      .ok (some (.vStr "OPEN_TENDER_AUTHORIZED")) := by
  refine ⟨?_, ?_, ?_, ?_⟩
  · exact (c10_get_order_state [("state", .vStr "COMPLETED")] [] [] [] .vNone "").1
      (by intro sv hsv; simp [lookupKey] at hsv; simp [← hsv])
  · exact ((c10_get_order_state [("state", .vStr "OPEN")] [] [] [] .vNone "").2 rfl).1
      (Or.inl rfl)
  · exact (((c10_get_order_state
      [("state", .vStr "OPEN"),
       ("tenders", .vList [.vObj [("card_details", .vObj [("status", .vStr "CAPTURED")])]])]
      [.vObj [("card_details", .vObj [("status", .vStr "CAPTURED")])]] [] [] .vNone "").2
        rfl).2.1 rfl (by simp)
      (by
        intro tt htt
        simp only [List.mem_singleton] at htt
        exact ⟨.vObj [("status", .vStr "CAPTURED")], by simp [htt, Value.getField, lookupKey]⟩))
  · exact (((c10_get_order_state
      [("state", .vStr "OPEN"),
       ("tenders", .vList [.vObj [("card_details", .vObj [("status", .vStr "AUTHORIZED")])]])]
      [] [] [] (.vObj [("card_details", .vObj [("status", .vStr "AUTHORIZED")])])
      "AUTHORIZED").2 rfl).2.2 rfl (by simp)
      ⟨.vObj [("status", .vStr "AUTHORIZED")], by simp [Value.getField, lookupKey]⟩
      (by decide))

/-! ## C4: the fixed flag blocks overwrites -/

/-- C4: a stored order with `_fixed: True` is left unchanged by
`update_order` (the replace filter misses, the duplicate-key error is caught);
a stored order without `_fixed` or with `_fixed: False` is replaced. -/
theorem c4_fixed_flag (coll : List (String × Value)) (oid : String) (doc : Value)
    (ofs : List (String × Value)) (h : lookupKey coll oid = some (.vObj ofs)) :
    (lookupKey ofs "_fixed" = some (.vBool true) → updateOrderDb coll oid doc = coll) ∧
    ((lookupKey ofs "_fixed" = none ∨ lookupKey ofs "_fixed" = some (.vBool false)) →
      updateOrderDb coll oid doc = setKey coll oid doc) := by
  constructor
  · intro hf
    unfold updateOrderDb
    rw [h]
    simp [isFixedBlocked, hf, Value.beq]
  · intro hf
    unfold updateOrderDb
    rw [h]
    rcases hf with hf | hf
    · simp [isFixedBlocked, hf]
    · simp [isFixedBlocked, hf, Value.beq]

/-- C4 witness: one fixed stored order and one ordinary stored order. -/
theorem c4_fixed_flag_witness :
    updateOrderDb [("o1", .vObj [("_fixed", .vBool true), ("total", .vInt 5)])] "o1"
        (.vObj [("total", .vInt 9)]) =
      [("o1", .vObj [("_fixed", .vBool true), ("total", .vInt 5)])] ∧
    updateOrderDb [("o2", .vObj [("total", .vInt 5)])] "o2" (.vObj [("total", .vInt 9)]) =
      setKey [("o2", .vObj [("total", .vInt 5)])] "o2" (.vObj [("total", .vInt 9)]) := by
  constructor
  · exact (c4_fixed_flag [("o1", .vObj [("_fixed", .vBool true), ("total", .vInt 5)])]
      "o1" (.vObj [("total", .vInt 9)]) [("_fixed", .vBool true), ("total", .vInt 5)]
      rfl).1 rfl
  · exact (c4_fixed_flag [("o2", .vObj [("total", .vInt 5)])]
      "o2" (.vObj [("total", .vInt 9)]) [("total", .vInt 5)] rfl).2 (Or.inl rfl)


/-! ## C3: pagination -/

theorem payoutsReadLoop_stuck (acc : List Value) (n : Nat) :
    payoutsReadLoop payoutsApiTwoPages n acc
      (.vObj [("payouts", .vList [.vStr "p1"]), ("cursor", .vStr "CUR")]) = .ok none := by
  induction n generalizing acc with
  | zero => rfl
  | succ m ih =>
      simp only [payoutsReadLoop]
      rw [if_neg (by decide)]
      have : payoutsApiTwoPages none =
          .success (.vObj [("payouts", .vList [.vStr "p1"]), ("cursor", .vStr "CUR")]) := rfl
      simp only [getFieldFs, lookupKey, Bind.bind, Except.bind]
      norm_num
      exact ih (acc ++ [.vStr "p1"])

/-- C3: `Payouts.read` does not pass the cursor to the follow-up
`list_payouts` call, so against a fixed two-page endpoint whose first
response carries a cursor it refetches the first page forever: for every
iteration bound the loop is still running (`.ok none` = fuel exhausted), the
second page is never retrieved, and the duplicated first page accumulates.
With the claimed cursor-following behavior this finite chain would
terminate (as `PayoutEntries.read` and `SquareInterface.search` do). -/
theorem c3_payouts_read_ignores_cursor :
    ∀ fuel : Nat, payoutsRead payoutsApiTwoPages fuel = .ok none := by
  intro fuel
  show payoutsReadLoop payoutsApiTwoPages fuel []
      (.vObj [("payouts", .vList [.vStr "p1"]), ("cursor", .vStr "CUR")]) = .ok none
  exact payoutsReadLoop_stuck [] fuel

/-- `PayoutEntries.read` on the analogous fixed two-page endpoint does
follow the cursor and terminates with both pages (contrast with
`payoutsRead`). -/
theorem payout_entries_read_follows_cursor :
    payoutEntriesRead (fun c => match c with
      | none => .success (.vObj [("payout_entries", .vList [.vStr "e1"]), ("cursor", .vStr "CUR")])
      | some _ => .success (.vObj [("payout_entries", .vList [.vStr "e2"])])) 2 =
      .ok (some [.vStr "e1", .vStr "e2"]) := by
  rfl

theorem searchLoop_follows_chain (api : Option Value → ApiResult)
    (objType : String) (pages : List (List Value)) :
    ∀ (cv : Value) (fuel : Nat) (acc : List Value),
      SearchChain api objType (some cv) pages → pages.length ≤ fuel →
      searchLoop api objType fuel acc cv = .ok (some (acc ++ pages.flatten)) := by
  induction pages with
  | nil => intro cv fuel acc hchain _; exact absurd hchain (by simp [SearchChain])
  | cons items rest ih =>
      intro cv fuel acc hchain hlen
      obtain ⟨bfs, hapi, hitems, hrest⟩ := hchain
      obtain ⟨f, rfl⟩ : ∃ f, fuel = f + 1 := by
        cases fuel
        · simp at hlen
        · exact ⟨_, rfl⟩
      simp only [searchLoop, hapi, Bind.bind, Except.bind, asObj, getFieldFs, hitems, asList]
      by_cases hcur : pyTruthy ((lookupKey bfs "cursor").getD .vNone) = true
      · rw [if_pos hcur] at hrest ⊢
        rw [ih _ f (acc ++ items) hrest (by simpa using hlen)]
        simp
      · rw [if_neg hcur] at hrest ⊢
        subst hrest
        simp

/-- Supporting fact for C3: `SquareInterface.search` follows the cursor
chain and returns the concatenation of the pages in order, terminating for
every finite success chain. -/
theorem search_follows_chain (api : Option Value → ApiResult)
    (pages : List (List Value)) (fuel : Nat)
    (hchain : SearchChain api "orders" none pages)
    (hlen : pages.length ≤ fuel + 1) :
    search api "orders" fuel = .ok (some pages.flatten) := by
  cases pages with
  | nil => exact absurd hchain (by simp [SearchChain])
  | cons items rest =>
      obtain ⟨bfs, hapi, hitems, hrest⟩ := hchain
      simp only [search, if_pos rfl, hapi, Bind.bind, Except.bind, asObj, getFieldFs,
        hitems, asList]
      by_cases hcur : pyTruthy ((lookupKey bfs "cursor").getD .vNone) = true
      · rw [if_pos hcur] at hrest ⊢
        rw [searchLoop_follows_chain api "orders" rest _ fuel items hrest
          (by simpa using hlen)]
        simp
      · rw [if_neg hcur] at hrest ⊢
        subst hrest
        simp

/-! ## C2: keyed upserts, uniqueness and idempotence -/

theorem upsertBlocked_lookup_ne (b : Value → Bool) (coll : List (String × Value))
    (oid : String) (doc : Value) (k : String) (h : k ≠ oid) :
    lookupKey (upsertBlocked b coll oid doc) k = lookupKey coll k := by
  unfold upsertBlocked
  cases hl : lookupKey coll oid with
  | none => exact lookupKey_setKey_ne _ _ _ _ (Ne.symm h)
  | some old =>
      by_cases hb : b old
      · simp [hb]
      · simp [hb, lookupKey_setKey_ne _ _ _ _ (Ne.symm h)]

theorem upsertBlocked_lookup_self (b : Value → Bool) (coll : List (String × Value))
    (oid : String) (doc : Value) :
    lookupKey (upsertBlocked b coll oid doc) oid =
      if blockedOpt b (lookupKey coll oid) then lookupKey coll oid else some doc := by
  unfold upsertBlocked
  cases hl : lookupKey coll oid with
  | none => simp [blockedOpt, lookupKey_setKey_self]
  | some old =>
      by_cases hb : b old
      · simp [blockedOpt, hb, hl]
      · simp [blockedOpt, hb, lookupKey_setKey_self]

theorem keysNodup_upsertBlocked (b : Value → Bool) (coll : List (String × Value))
    (oid : String) (doc : Value) (h : keysNodup coll) :
    keysNodup (upsertBlocked b coll oid doc) := by
  unfold upsertBlocked
  cases lookupKey coll oid with
  | none => exact keysNodup_setKey _ _ _ h
  | some old =>
      by_cases hb : b old
      · simpa [hb] using h
      · simpa [hb] using keysNodup_setKey coll oid doc h

theorem docsFor_cons (i : String) (d : Value) (items : List (String × Value)) (k : String) :
    docsFor ((i, d) :: items) k = if i = k then d :: docsFor items k else docsFor items k := by
  by_cases h : i = k <;> simp [docsFor, List.filter, h]

theorem runUpserts_cons (b : Value → Bool) (i : String) (d : Value)
    (items : List (String × Value)) (coll : List (String × Value)) :
    runUpserts b ((i, d) :: items) coll = runUpserts b items (upsertBlocked b coll i d) := rfl

theorem runUpserts_lookup (b : Value → Bool) (items : List (String × Value)) :
    ∀ (coll : List (String × Value)) (k : String),
      lookupKey (runUpserts b items coll) k = foldDoc b (lookupKey coll k) (docsFor items k) := by
  induction items with
  | nil => intro coll k; rfl
  | cons it rest ih =>
      intro coll k
      obtain ⟨i, d⟩ := it
      rw [runUpserts_cons, ih, docsFor_cons]
      by_cases hik : i = k
      · subst hik
        rw [if_pos rfl, upsertBlocked_lookup_self]
        show foldDoc b _ _ = foldDoc b _ (_ :: _)
        rw [foldDoc]
      · rw [if_neg hik, upsertBlocked_lookup_ne b coll i d k (Ne.symm hik)]

theorem foldDoc_of_blocked (b : Value → Bool) (ds : List Value) :
    ∀ cur, blockedOpt b cur = true → foldDoc b cur ds = cur := by
  induction ds with
  | nil => intro cur _; rfl
  | cons d rest ih =>
      intro cur hb
      rw [foldDoc, if_pos hb]
      exact ih cur hb

theorem foldDoc_isSome (b : Value → Bool) (ds : List Value) :
    ∀ cur, cur.isSome = true ∨ ds ≠ [] → (foldDoc b cur ds).isSome = true := by
  induction ds with
  | nil =>
      intro cur h
      rcases h with h | h
      · exact h
      · exact absurd rfl h
  | cons d rest ih =>
      intro cur _
      rw [foldDoc]
      apply ih
      left
      by_cases hb : blockedOpt b cur = true
      · rw [if_pos hb]
        cases cur with
        | none => simp [blockedOpt] at hb
        | some v => rfl
      · rw [if_neg hb]
        rfl

theorem foldDoc_idem (b : Value → Bool) (ds : List Value) (cur : Option Value) :
    foldDoc b (foldDoc b cur ds) ds = foldDoc b cur ds := by
  by_cases hb : blockedOpt b (foldDoc b cur ds) = true
  · exact foldDoc_of_blocked b ds _ hb
  · cases ds with
    | nil => rfl
    | cons d rest =>
        have hcur : blockedOpt b cur = false := by
          by_contra hc
          have hc2 : blockedOpt b cur = true := by
            cases hcb : blockedOpt b cur
            · exact absurd hcb hc
            · rfl
          rw [foldDoc_of_blocked b (d :: rest) cur hc2] at hb
          exact hb hc2
        have hstep : foldDoc b cur (d :: rest) = foldDoc b (some d) rest := by
          rw [foldDoc, if_neg (by rw [hcur]; exact Bool.false_ne_true)]
        rw [hstep] at hb
        rw [hstep]
        rw [foldDoc, if_neg hb]

theorem keysNodup_runUpserts (b : Value → Bool) (items : List (String × Value)) :
    ∀ coll, keysNodup coll → keysNodup (runUpserts b items coll) := by
  induction items with
  | nil => intro coll h; exact h
  | cons it rest ih =>
      intro coll h
      obtain ⟨i, d⟩ := it
      rw [runUpserts_cons]
      exact ih _ (keysNodup_upsertBlocked b coll i d h)

theorem docsFor_ne_nil_of_mem (items : List (String × Value)) (it : String × Value)
    (h : it ∈ items) : docsFor items it.1 ≠ [] := by
  induction items with
  | nil => simp at h
  | cons hd rest ih =>
      obtain ⟨i, d⟩ := hd
      rw [docsFor_cons]
      rcases List.mem_cons.mp h with h | h
      · subst h
        simp
      · by_cases hik : i = it.1
        · simp [hik]
        · rw [if_neg hik]
          exact ih h

theorem runOrdersSync_eq_runUpserts (items coll : List (String × Value)) :
    runOrdersSync items coll = runUpserts isFixedBlocked items coll := rfl

theorem upsertBlocked_false_eq_setKey (coll : List (String × Value)) (oid : String)
    (doc : Value) : upsertBlocked (fun _ => false) coll oid doc = setKey coll oid doc := by
  unfold upsertBlocked
  cases lookupKey coll oid <;> simp

theorem runCatalogSync_eq_runUpserts (items : List (String × Value)) :
    ∀ coll, runCatalogSync items coll = runUpserts (fun _ => false) items coll := by
  induction items with
  | nil => intro coll; rfl
  | cons it rest ih =>
      intro coll
      obtain ⟨i, d⟩ := it
      show runCatalogSync rest (setKey coll i d) = _
      rw [runUpserts_cons, upsertBlocked_false_eq_setKey, ih]

theorem countKey_eq_one_of_nodup_lookup (coll : List (String × Value)) (k : String)
    (hnd : keysNodup coll) (hs : (lookupKey coll k).isSome = true) :
    countKey coll k = 1 := by
  obtain ⟨v, hv⟩ := Option.isSome_iff_exists.mp hs
  have h1 := countKey_pos_of_lookup_some coll k v hv
  have h2 := countKey_le_one_of_nodup coll k hnd
  omega

/-- C2: both connector upsert layers (Orders.update_order with its fixed
guard, Catalog.update_obj and the other plain replaces) store at most one
document per id — after a sync over key-unique storage every synced id has
exactly one document — and rerunning the same sync over the same source
items leaves the stored collection (observed through every key) unchanged. -/
theorem c2_upsert_idempotent (items coll : List (String × Value))
    (hnd : keysNodup coll) :
    (keysNodup (runOrdersSync items coll) ∧ keysNodup (runCatalogSync items coll)) ∧
    (∀ it ∈ items, countKey (runOrdersSync items coll) it.1 = 1 ∧
      countKey (runCatalogSync items coll) it.1 = 1) ∧
    (∀ k, lookupKey (runOrdersSync items (runOrdersSync items coll)) k =
      lookupKey (runOrdersSync items coll) k) ∧
    (∀ k, lookupKey (runCatalogSync items (runCatalogSync items coll)) k =
      lookupKey (runCatalogSync items coll) k) := by
  have hOrd : ∀ cl, runOrdersSync items cl = runUpserts isFixedBlocked items cl :=
    fun cl => rfl
  have hCat := runCatalogSync_eq_runUpserts items
  refine ⟨⟨?_, ?_⟩, ?_, ?_, ?_⟩
  · rw [hOrd]
    exact keysNodup_runUpserts _ items coll hnd
  · rw [hCat]
    exact keysNodup_runUpserts _ items coll hnd
  · intro it hit
    constructor
    · apply countKey_eq_one_of_nodup_lookup
      · rw [hOrd]; exact keysNodup_runUpserts _ items coll hnd
      · rw [hOrd, runUpserts_lookup]
        exact foldDoc_isSome _ _ _ (Or.inr (docsFor_ne_nil_of_mem items it hit))
    · apply countKey_eq_one_of_nodup_lookup
      · rw [hCat]; exact keysNodup_runUpserts _ items coll hnd
      · rw [hCat, runUpserts_lookup]
        exact foldDoc_isSome _ _ _ (Or.inr (docsFor_ne_nil_of_mem items it hit))
  · intro k
    rw [hOrd, hOrd, runUpserts_lookup, runUpserts_lookup, foldDoc_idem]
  · intro k
    rw [hCat, hCat, runUpserts_lookup, runUpserts_lookup, foldDoc_idem]

/-- C2 witness: a two-object sync over an initially empty collection. -/
theorem c2_upsert_idempotent_witness :
    keysNodup (([] : List (String × Value))) ∧
    countKey (runOrdersSync [("a", .vObj [("n", .vInt 1)]), ("b", .vObj [("n", .vInt 2)])] [])
      "a" = 1 ∧
    lookupKey (runCatalogSync [("a", .vObj [("n", .vInt 1)]), ("b", .vObj [("n", .vInt 2)])]
      (runCatalogSync [("a", .vObj [("n", .vInt 1)]), ("b", .vObj [("n", .vInt 2)])] []))
      "b" =
    lookupKey (runCatalogSync [("a", .vObj [("n", .vInt 1)]), ("b", .vObj [("n", .vInt 2)])] [])
      "b" := by
  have hnd : keysNodup (([] : List (String × Value))) := by simp [keysNodup]
  have h := c2_upsert_idempotent
    [("a", .vObj [("n", .vInt 1)]), ("b", .vObj [("n", .vInt 2)])] [] hnd
  exact ⟨hnd, (h.2.1 ("a", .vObj [("n", .vInt 1)]) (by simp)).1, h.2.2.2 "b"⟩


/-! ## C9: itemization re-keying -/

theorem strNeOfLen (a b : String) (h : a.length ≠ b.length) : a ≠ b := by
  intro he
  exact h (he ▸ rfl)

theorem combined_ne_uid (oidV : Value) (uid : String) :
    pyStr oidV ++ "_" ++ uid ≠ uid := by
  apply strNeOfLen
  have h1 : ("_" : String).length = 1 := rfl
  simp only [String.length_append, h1]
  omega

theorem except_bind_ok {α β : Type} (x : Except String α) (f : α → Except String β) (b : β)
    (h : (x >>= f) = .ok b) : ∃ a, x = .ok a ∧ f a = .ok b := by
  cases x with
  | error e => simp [Bind.bind, Except.bind] at h
  | ok a => exact ⟨a, rfl, by simpa [Bind.bind, Except.bind] using h⟩

theorem except_pure_eq_ok {α : Type} (a : α) : (pure a : Except String α) = .ok a := rfl

theorem applyItemizationCustomizations_ok (itm order out : List (String × Value))
    (h : applyItemizationCustomizations itm order = .ok out) :
    (∃ n : Int, lookupKey out "quantity" = some (.vInt n)) ∧
    (∀ srcV nmV, lookupKey order "source" = some srcV → srcV.getField "name" = .ok nmV →
      lookupKey out "order_source" = some nmV) := by
  rw [applyItemizationCustomizations] at h
  obtain ⟨srcv, hsrc, h⟩ := except_bind_ok _ _ _ h
  obtain ⟨nmv, hnm, h⟩ := except_bind_ok _ _ _ h
  obtain ⟨qv, hq, h⟩ := except_bind_ok _ _ _ h
  obtain ⟨q, hpi, h⟩ := except_bind_ok _ _ _ h
  simp only [pure, Except.pure, Except.ok.injEq] at h
  subst h
  refine ⟨⟨q, lookupKey_setKey_self _ _ _⟩, ?_⟩
  intro srcV nmV hsrcV hnmV
  have hsv : srcv = srcV := by
    simp only [getFieldFs, hsrcV, Except.ok.injEq] at hsrc
    exact hsrc.symm
  subst hsv
  rw [hnmV] at hnm
  have hnv : nmv = nmV := ((Except.ok.injEq _ _).mp hnm.symm)
  subst hnv
  rw [lookupKey_setKey_ne _ _ _ _ (by decide)]
  exact lookupKey_setKey_self _ _ _

/-- C9: `update_itemization` saves the raw line item, then stores the
processed line item under the id `"<order_id>_<uid>"`, deleting any document
still stored under the bare uid first, so afterwards no document keyed by
the bare uid remains; the stored document has an integer quantity and its
order_source equal to the order source name. -/
theorem c9_update_itemization (db : SqDb) (itmFs0 : List (String × Value))
    (order props : List (String × Value)) (oidV : Value) (uid : String)
    (db2 : SqDb) (itmOut : Value)
    (hoid : lookupKey order "_id" = some oidV)
    (huid : lookupKey itmFs0 "uid" = some (.vStr uid))
    (hcount : countKey db.itemizations uid ≤ 1)
    (hok : updateItemization db (.vObj itmFs0) order props = .ok (db2, itmOut)) :
    ∃ outFs : List (String × Value),
      itmOut = .vObj outFs ∧
      db2.itemizations = setKey (removeKey db.itemizations uid)
        (pyStr oidV ++ "_" ++ uid) (.vObj outFs) ∧
      lookupKey db2.itemizations (pyStr oidV ++ "_" ++ uid) = some (.vObj outFs) ∧
      lookupKey db2.itemizations uid = none ∧
      (∃ n : Int, lookupKey outFs "quantity" = some (.vInt n)) ∧
      (∀ srcV nmV, lookupKey order "source" = some srcV → srcV.getField "name" = .ok nmV →
        lookupKey outFs "order_source" = some nmV) := by
  rw [updateItemization] at hok
  obtain ⟨db1, hdb1, hok2⟩ := except_bind_ok _ _ _ hok
  obtain ⟨oidV2, hoid2, hok3⟩ := except_bind_ok _ _ _ hok2
  obtain ⟨uidV2, huid2, hok4⟩ := except_bind_ok _ _ _ hok3
  obtain ⟨itmFsA, hfsA, hok5⟩ := except_bind_ok _ _ _ hok4
  dsimp only at hok5
  obtain ⟨outFs, happ, hfin⟩ := except_bind_ok _ _ _ hok5
  simp only [getFieldFs, hoid, Except.ok.injEq] at hoid2
  subst hoid2
  simp only [Value.getField, huid, Except.ok.injEq] at huid2
  subst huid2
  simp only [asObj, Except.ok.injEq] at hfsA
  subst hfsA
  have hdb1c : db1 = { db with rawItemizations := setKey db.rawItemizations (pyStr oidV ++ "_" ++ pyStr (.vStr uid)) (.vObj itmFs0) } := by
    rw [saveRawItemization] at hdb1
    simp only [getFieldFs, hoid, Value.getField, huid, Bind.bind, Except.bind, pure,
      Except.pure, Except.ok.injEq] at hdb1
    exact hdb1.symm
  subst hdb1c
  simp only [pure, Except.pure, Except.ok.injEq, Prod.mk.injEq] at hfin
  obtain ⟨hdb2, hout⟩ := hfin
  rw [show pyStr (Value.vStr uid) = uid from rfl] at hdb2
  refine ⟨outFs, hout.symm, ?_, ?_, ?_,
    (applyItemizationCustomizations_ok _ _ _ happ).1,
    (applyItemizationCustomizations_ok _ _ _ happ).2⟩
  · rw [← hdb2]
  · rw [← hdb2]
    exact lookupKey_setKey_self _ _ _
  · rw [← hdb2]
    show lookupKey (setKey (removeKey db.itemizations uid) (pyStr oidV ++ "_" ++ uid) (.vObj outFs)) uid = none
    rw [lookupKey_setKey_ne _ _ _ _ (combined_ne_uid oidV uid)]
    exact lookupKey_removeKey_self _ _ hcount

/-- C9 witness: one line item with a string quantity on an order with the
default Point of Sale source. -/
theorem c9_update_itemization_witness :
    updateItemization SqDb.empty (.vObj [("uid", .vStr "u1"), ("quantity", .vStr "2")])
      [("_id", .vStr "O1"), ("source", .vObj [("name", .vStr "PoS")])]
      [("itemization_type", .vStr "sale")] =
      .ok ({ SqDb.empty with
              rawItemizations := [("O1_u1",
                .vObj [("uid", .vStr "u1"), ("quantity", .vStr "2")])],
              itemizations := [("O1_u1",
                .vObj [("uid", .vStr "u1"), ("quantity", .vInt 2), ("id", .vStr "O1_u1"),
                  ("itemization_type", .vStr "sale"), ("order_source", .vStr "PoS")])] },
        .vObj [("uid", .vStr "u1"), ("quantity", .vInt 2), ("id", .vStr "O1_u1"),
          ("itemization_type", .vStr "sale"), ("order_source", .vStr "PoS")]) ∧
    ∃ outFs : List (String × Value),
      (.vObj [("uid", .vStr "u1"), ("quantity", .vInt 2), ("id", .vStr "O1_u1"),
        ("itemization_type", .vStr "sale"), ("order_source", .vStr "PoS")] : Value) =
          .vObj outFs ∧
      [("O1_u1", Value.vObj [("uid", .vStr "u1"), ("quantity", .vInt 2), ("id", .vStr "O1_u1"),
          ("itemization_type", .vStr "sale"), ("order_source", .vStr "PoS")])] =
        setKey (removeKey ([] : List (String × Value)) "u1")
          (pyStr (.vStr "O1") ++ "_" ++ "u1") (.vObj outFs) ∧
      lookupKey [("O1_u1", Value.vObj [("uid", .vStr "u1"), ("quantity", .vInt 2),
          ("id", .vStr "O1_u1"), ("itemization_type", .vStr "sale"),
          ("order_source", .vStr "PoS")])] (pyStr (.vStr "O1") ++ "_" ++ "u1") =
        some (.vObj outFs) ∧
      lookupKey [("O1_u1", Value.vObj [("uid", .vStr "u1"), ("quantity", .vInt 2),
          ("id", .vStr "O1_u1"), ("itemization_type", .vStr "sale"),
          ("order_source", .vStr "PoS")])] "u1" = none ∧
      (∃ n : Int, lookupKey outFs "quantity" = some (.vInt n)) ∧
      (∀ srcV nmV,
        lookupKey [("_id", Value.vStr "O1"),
          ("source", Value.vObj [("name", Value.vStr "PoS")])] "source" = some srcV →
        srcV.getField "name" = .ok nmV → lookupKey outFs "order_source" = some nmV) := by
  constructor
  · rfl
  · have h := c9_update_itemization SqDb.empty
      [("uid", .vStr "u1"), ("quantity", .vStr "2")]
      [("_id", .vStr "O1"), ("source", .vObj [("name", .vStr "PoS")])]
      [("itemization_type", .vStr "sale")] (.vStr "O1") "u1"
      ({ SqDb.empty with
          rawItemizations := [("O1_u1",
            .vObj [("uid", .vStr "u1"), ("quantity", .vStr "2")])],
          itemizations := [("O1_u1",
            .vObj [("uid", .vStr "u1"), ("quantity", .vInt 2), ("id", .vStr "O1_u1"),
              ("itemization_type", .vStr "sale"), ("order_source", .vStr "PoS")])] })
      (.vObj [("uid", .vStr "u1"), ("quantity", .vInt 2), ("id", .vStr "O1_u1"),
        ("itemization_type", .vStr "sale"), ("order_source", .vStr "PoS")])
      rfl rfl (by simp [countKey]) rfl
    obtain ⟨outFs, h1, h2, h3, h4, h5, h6⟩ := h
    exact ⟨outFs, h1, h2, h3, h4, h5, h6⟩


/-! ## C6: API error tolerance in process_tenders and process_refunds -/

/-- C6: when the payment lookup for a tender fails, no payment document is
written; the failure is silent exactly for zero-amount, OTHER and CASH
tenders, otherwise the errors are logged.  When the payment-refund lookup
fails, no refund document is written; the failure is silent (debug log only)
exactly when the stored tender referenced by the refund has type CASH or
OTHER, otherwise the first error detail is logged.  In every branch the
function returns normally (`.ok`), so the loop continues with the remaining
records. -/
theorem c6_error_tolerance
    (decode : String → Int) (payApi refApi : String → ApiResult) (db : SqDb)
    (t : Value) (tid : String) (errs : List Value)
    (am av tv : Value) (refund : Value) (rtid : String) (ridV oidV : Value) :
    (payApi tid = .failure errs →
      t.getField "amount_money" = .ok am → am.getField "amount" = .ok av →
      ((pyEqInt av 0 = true → processTenderPayment decode payApi db t tid = .ok db) ∧
       (pyEqInt av 0 = false → t.getField "type" = .ok tv →
         (Value.beq tv (.vStr "OTHER") = true ∨ Value.beq tv (.vStr "CASH") = true) →
         processTenderPayment decode payApi db t tid = .ok db) ∧
       (pyEqInt av 0 = false → t.getField "type" = .ok tv →
         Value.beq tv (.vStr "OTHER") = false → Value.beq tv (.vStr "CASH") = false →
         processTenderPayment decode payApi db t tid =
           .ok (db.withErr ["Error calling PaymentsApi.get_payment", String.intercalate ", " (errs.map pyStr)])))) ∧
    (refund.getField "tender_id" = .ok (.vStr rtid) → refund.getField "id" = .ok ridV →
      refApi (pyStr (.vStr rtid) ++ "_" ++ pyStr ridV) = .failure errs →
      ((∀ tdoc tyv, lookupKey db.tenders rtid = some tdoc → pyTruthy tdoc = true →
         tdoc.getField "type" = .ok tyv →
         (Value.beq tyv (.vStr "CASH") = true ∨ Value.beq tyv (.vStr "OTHER") = true) →
         processOneRefund decode refApi oidV db refund = .ok db) ∧
       (∀ tdoc tyv e0 dv, lookupKey db.tenders rtid = some tdoc → pyTruthy tdoc = true →
         tdoc.getField "type" = .ok tyv →
         Value.beq tyv (.vStr "CASH") = false → Value.beq tyv (.vStr "OTHER") = false →
         listGet errs 0 = .ok e0 → e0.getField "detail" = .ok dv →
         processOneRefund decode refApi oidV db refund =
           .ok (db.withErr ["order: " ++ pyStr oidV ++ ", " ++ pyStr dv])) ∧
       (∀ e0 dv, lookupKey db.tenders rtid = none →
         listGet errs 0 = .ok e0 → e0.getField "detail" = .ok dv →
         processOneRefund decode refApi oidV db refund =
           .ok (db.withErr ["order: " ++ pyStr oidV ++ ", " ++ pyStr dv])))) := by
  constructor
  · intro hapi ham hav
    refine ⟨?_, ?_, ?_⟩
    · intro hz
      simp [processTenderPayment, hapi, ham, hav, hz, Bind.bind, Except.bind, pure, Except.pure, except_pure_eq_ok]
    · intro hz hty hor
      rcases hor with hor | hor
      · simp [processTenderPayment, hapi, ham, hav, hz, hty, hor, Bind.bind, Except.bind, pure, Except.pure, except_pure_eq_ok]
      · cases ho : Value.beq tv (.vStr "OTHER") with
        | true => simp [processTenderPayment, hapi, ham, hav, hz, hty, ho, Bind.bind, Except.bind, pure, Except.pure, except_pure_eq_ok]
        | false => simp [processTenderPayment, hapi, ham, hav, hz, hty, ho, hor, Bind.bind, Except.bind, pure, Except.pure, except_pure_eq_ok]
    · intro hz hty ho hc
      simp [processTenderPayment, hapi, ham, hav, hz, hty, ho, hc, Bind.bind, Except.bind,
        pure, Except.pure, except_pure_eq_ok, SqDb.withErr]
  · intro hrt hrid hrapi
    refine ⟨?_, ?_, ?_⟩
    · intro tdoc tyv hfound htr hty hor
      rcases hor with hor | hor
      · simp [processOneRefund, hrt, hrid, hrapi, hfound, htr, hty, hor, Bind.bind, Except.bind, pure, Except.pure, except_pure_eq_ok]
      · cases hc : Value.beq tyv (.vStr "CASH") with
        | true => simp [processOneRefund, hrt, hrid, hrapi, hfound, htr, hty, hc, Bind.bind, Except.bind, pure, Except.pure, except_pure_eq_ok]
        | false => simp [processOneRefund, hrt, hrid, hrapi, hfound, htr, hty, hc, hor, Bind.bind, Except.bind, pure, Except.pure, except_pure_eq_ok]
    · intro tdoc tyv e0 dv hfound htr hty hc ho he0 hdv
      simp [processOneRefund, hrt, hrid, hrapi, hfound, htr, hty, hc, ho, he0, hdv,
        Bind.bind, Except.bind, pure, Except.pure, except_pure_eq_ok, SqDb.withErr]
    · intro e0 dv hfound he0 hdv
      simp [processOneRefund, hrt, hrid, hrapi, hfound, he0, hdv, Bind.bind, Except.bind,
        pure, Except.pure, except_pure_eq_ok, SqDb.withErr]

/-- C6 witness: a zero-amount tender failure (silent), a CARD tender failure
(logged), and a refund failure whose stored tender is CASH (silent). -/
theorem c6_error_tolerance_witness :
    processTenderPayment (fun s => (s.length : Int)) (fun _ => .failure [])
      SqDb.empty (.vObj [("id", .vStr "T1"), ("amount_money", .vObj [("amount", .vInt 0)])])
      "T1" = .ok SqDb.empty ∧
    processTenderPayment (fun s => (s.length : Int))
      (fun _ => .failure [.vObj [("detail", .vStr "nope")]])
      SqDb.empty
      (.vObj [("id", .vStr "T2"), ("amount_money", .vObj [("amount", .vInt 5)]),
        ("type", .vStr "CARD")]) "T2" =
      .ok (SqDb.empty.withErr ["Error calling PaymentsApi.get_payment",
        String.intercalate ", " ([Value.vObj [("detail", .vStr "nope")]].map pyStr)]) ∧
    processOneRefund (fun s => (s.length : Int))
      (fun _ => .failure [.vObj [("detail", .vStr "nope")]]) (.vStr "O1")
      { SqDb.empty with tenders := [("T1", .vObj [("type", .vStr "CASH")])] }
      (.vObj [("tender_id", .vStr "T1"), ("id", .vStr "R1")]) =
      .ok { SqDb.empty with tenders := [("T1", .vObj [("type", .vStr "CASH")])] } := by
  refine ⟨?_, ?_, ?_⟩
  · exact ((c6_error_tolerance (fun s => (s.length : Int)) (fun _ => .failure [])
      (fun _ => .failure []) SqDb.empty
      (.vObj [("id", .vStr "T1"), ("amount_money", .vObj [("amount", .vInt 0)])]) "T1" []
      (.vObj [("amount", .vInt 0)]) (.vInt 0) .vNone .vNone "x" .vNone .vNone).1
      rfl rfl rfl).1 rfl
  · exact ((c6_error_tolerance (fun s => (s.length : Int))
      (fun _ => .failure [.vObj [("detail", .vStr "nope")]])
      (fun _ => .failure []) SqDb.empty
      (.vObj [("id", .vStr "T2"), ("amount_money", .vObj [("amount", .vInt 5)]),
        ("type", .vStr "CARD")]) "T2" [.vObj [("detail", .vStr "nope")]]
      (.vObj [("amount", .vInt 5)]) (.vInt 5) (.vStr "CARD") .vNone "x" .vNone .vNone).1
      rfl rfl rfl).2.2 rfl rfl rfl rfl
  · exact ((c6_error_tolerance (fun s => (s.length : Int)) (fun _ => .failure [])
      (fun _ => .failure [.vObj [("detail", .vStr "nope")]])
      { SqDb.empty with tenders := [("T1", .vObj [("type", .vStr "CASH")])] }
      .vNone "x" [.vObj [("detail", .vStr "nope")]] .vNone .vNone .vNone
      (.vObj [("tender_id", .vStr "T1"), ("id", .vStr "R1")]) "T1" (.vStr "R1")
      (.vStr "O1")).2
      rfl rfl rfl).1 (.vObj [("type", .vStr "CASH")]) (.vStr "CASH") rfl rfl rfl
      (Or.inl rfl)


/-! ## C1: the pull loops and the watermark -/

/-- C1 counterexample: `Catalog.pull` does NOT process records in retrieval
order — it sorts them by their raw `updated_at` key first.  Retrieving the
newer object before the older one, the code ends with the newer id as the
persisted watermark, while processing in retrieval order (the definition
written from the claim text) would end with the older id. -/
theorem c1_counterexample :
    (catalogPull (fun str => (str.length : Int)) "square_catalog_items" true
      [.vObj [("id", .vStr "b"), ("updated_at", .vStr "2"), ("item_data", .vObj [("name", .vStr "nb")])],
       .vObj [("id", .vStr "a"), ("updated_at", .vStr "1"), ("item_data", .vObj [("name", .vStr "na")])]]
      ⟨[], ⟨some "square_catalog_items", [], .vBool true, []⟩, 0⟩).map
        (fun st => configGetattr st.props "last_id") = .ok (some (.vStr "b")) ∧
    (catalogPullRetrievalOrder (fun str => (str.length : Int)) "square_catalog_items" true
      [.vObj [("id", .vStr "b"), ("updated_at", .vStr "2"), ("item_data", .vObj [("name", .vStr "nb")])],
       .vObj [("id", .vStr "a"), ("updated_at", .vStr "1"), ("item_data", .vObj [("name", .vStr "na")])]]
      ⟨[], ⟨some "square_catalog_items", [], .vBool true, []⟩, 0⟩).map
        (fun st => configGetattr st.props "last_id") = .ok (some (.vStr "a")) ∧
    (Except.ok (some (Value.vStr "b")) : Except String (Option Value)) ≠
      .ok (some (.vStr "a")) := by
  refine ⟨rfl, rfl, ?_⟩
  intro h
  simp only [Except.ok.injEq, Option.some.injEq, Value.vStr.injEq] at h
  exact absurd h (by decide)

theorem configSetattr_nonreserved (st : ConfigState) (prop : String) (v : Value)
    (hres : prop ∉ configReserved) (hund : startsWithUnderscore prop = false) :
    (configSetattr st prop v).props = setKey st.props prop v ∧
    (configSetattr st prop v).name = st.name ∧
    (configSetattr st prop v).autoUpdate = st.autoUpdate := by
  have hcond : ¬ (prop ∈ configReserved ∨ startsWithUnderscore prop = true) := by
    intro hc
    rcases hc with hc | hc
    · exact hres hc
    · rw [hund] at hc
      exact Bool.false_ne_true hc
  unfold configSetattr
  rw [if_neg hcond]
  dsimp only
  split <;> simp [configUpdate]

/-- The watermark advance: both properties are set in the in-memory property
set and the whole set is persisted under the configuration set name. -/
theorem advanceWatermark_spec (p : ConfigState) (ua oidV : Value) :
    configGetattr (advanceWatermark p ua oidV) "last_updated" = some ua ∧
    configGetattr (advanceWatermark p ua oidV) "last_id" = some oidV ∧
    (advanceWatermark p ua oidV).name = p.name ∧
    lookupKey (advanceWatermark p ua oidV).collection p.name =
      some ⟨p.name, (advanceWatermark p ua oidV).props⟩ := by
  have h1 := configSetattr_nonreserved p "last_updated" ua (by decide) (by decide)
  have h2 := configSetattr_nonreserved (configSetattr p "last_updated" ua) "last_id" oidV
    (by decide) (by decide)
  have hprops : (advanceWatermark p ua oidV).props =
      setKey (setKey p.props "last_updated" ua) "last_id" oidV := by
    unfold advanceWatermark configUpdate
    simp only [h2.1, h1.1]
  have hlu : lookupKey (advanceWatermark p ua oidV).props "last_updated" = some ua := by
    rw [hprops]
    rw [lookupKey_setKey_ne _ _ _ _ (by decide)]
    exact lookupKey_setKey_self _ _ _
  have hli : lookupKey (advanceWatermark p ua oidV).props "last_id" = some oidV := by
    rw [hprops]
    exact lookupKey_setKey_self _ _ _
  have hnonempty : (advanceWatermark p ua oidV).props.isEmpty = false := by
    rw [hprops]
    cases hsk : setKey (setKey p.props "last_updated" ua) "last_id" oidV with
    | nil =>
        have hsself := lookupKey_setKey_self (setKey p.props "last_updated" ua) "last_id" oidV
        rw [hsk] at hsself
        simp [lookupKey] at hsself
    | cons a l => rfl
  have hname : (advanceWatermark p ua oidV).name = p.name := by
    unfold advanceWatermark configUpdate
    simp only [h2.2.1, h1.2.1]
  refine ⟨?_, ?_, hname, ?_⟩
  · unfold configGetattr
    rw [if_neg (by simp [hnonempty])]
    exact hlu
  · unfold configGetattr
    rw [if_neg (by simp [hnonempty])]
    exact hli
  · show lookupKey (setKey _ _ _) _ = _
    have hn2 : (configSetattr (configSetattr p "last_updated" ua) "last_id" oidV).name = p.name := by
      simp only [h2.2.1, h1.2.1]
    rw [hn2]
    exact lookupKey_setKey_self _ _ _

/-- C1 (amended): Orders.pull processes records in retrieval order, while
Catalog.pull first sorts the retrieved objects by their raw updated_at key
(stable ascending) and processes the sorted list.  While no record has been
updated yet, a record whose id and decoded updated_at both equal (by Python
equality) the stored watermark is skipped: the collections (except the raw
order save, which happens before the duplicate check), the property set and
the configuration store are unchanged by it.  Every other record is updated
and, with save_last=True, the watermark properties are set to its id and
decoded updated_at and the property set is persisted (see
`advanceWatermark_spec`).  With save_last=False the configuration properties
— the watermark included — are never touched. -/
theorem c1_pull_watermark (decode : String → Int) (payApi refApi : String → ApiResult)
    (saveLast : Bool) (os : List Value) (st : OrdersPullState) (o : Value)
    (oidV : Value) (updStr : String) (collName : String) (cst : CatalogPullState)
    (cobjs : List Value) :
    (o.getField "id" = .ok oidV → o.getField "updated_at" = .ok (.vStr updStr) →
      isDupOfLast st.props st.updateCount oidV (.vDT (decode updStr)) = true →
      ordersPullLoop decode payApi refApi saveLast true (o :: os) st =
        ordersPullLoop decode payApi refApi saveLast true os st) ∧
    (∀ dbR oR, saveRawOrder st.db o = .ok (dbR, oR) →
      oR.getField "id" = .ok oidV → oR.getField "updated_at" = .ok (.vStr updStr) →
      isDupOfLast st.props st.updateCount oidV (.vDT (decode updStr)) = true →
      ordersPullLoop decode payApi refApi saveLast false (o :: os) st =
        ordersPullLoop decode payApi refApi saveLast false os
          { st with db := dbR }) ∧
    (∀ db2 o2, o.getField "id" = .ok oidV →
      o.getField "updated_at" = .ok (.vStr updStr) →
      isDupOfLast st.props st.updateCount oidV (.vDT (decode updStr)) = false →
      updateOrder decode payApi refApi st.db o = .ok (db2, o2) →
      ordersPullLoop decode payApi refApi true true (o :: os) st =
        ordersPullLoop decode payApi refApi true true os
          ⟨db2, advanceWatermark st.props (.vDT (decode updStr)) oidV,
            st.updateCount + 1⟩) ∧
    (∀ db2 o2, o.getField "id" = .ok oidV →
      o.getField "updated_at" = .ok (.vStr updStr) →
      isDupOfLast st.props st.updateCount oidV (.vDT (decode updStr)) = false →
      updateOrder decode payApi refApi st.db o = .ok (db2, o2) →
      ordersPullLoop decode payApi refApi false true (o :: os) st =
        ordersPullLoop decode payApi refApi false true os
          ⟨db2, st.props, st.updateCount + 1⟩) ∧
    (∀ fromRaw st2, ordersPullLoop decode payApi refApi false fromRaw os st = .ok st2 →
      st2.props = st.props) ∧
    (catalogPull decode collName saveLast cobjs cst =
      (pySortByUpdatedAt cobjs) >>= fun sortedObjs =>
        catalogPullLoop decode collName saveLast sortedObjs cst) ∧
    (o.getField "id" = .ok oidV → o.getField "updated_at" = .ok (.vStr updStr) →
      isDupOfLast cst.props cst.updateCount oidV (.vDT (decode updStr)) = true →
      catalogPullLoop decode collName saveLast (o :: os) cst =
        catalogPullLoop decode collName saveLast os cst) ∧
    (∀ coll2 o2, o.getField "id" = .ok oidV →
      o.getField "updated_at" = .ok (.vStr updStr) →
      isDupOfLast cst.props cst.updateCount oidV (.vDT (decode updStr)) = false →
      catalogUpdateObj decode collName cst.coll o = .ok (coll2, o2) →
      catalogPullLoop decode collName true (o :: os) cst =
        catalogPullLoop decode collName true os
          ⟨coll2, advanceWatermark cst.props (.vDT (decode updStr)) oidV,
            cst.updateCount + 1⟩) ∧
    (∀ st2, catalogPullLoop decode collName false os cst = .ok st2 →
      st2.props = cst.props) := by
  refine ⟨?_, ?_, ?_, ?_, ?_, rfl, ?_, ?_, ?_⟩
  · intro hid hupd hdup
    simp only [ordersPullLoop, hid, hupd, hdup, Bind.bind, Except.bind,
      pure, Except.pure, eq_self_iff_true, if_true, ite_true]
  · intro dbR oR hraw hid hupd hdup
    simp only [ordersPullLoop, hraw, hid, hupd, hdup, Bind.bind, Except.bind,
      pure, Except.pure, Bool.false_eq_true, if_false, eq_self_iff_true, if_true, ite_true]
  · intro db2 o2 hid hupd hdup hupdate
    simp only [ordersPullLoop, hid, hupd, hdup, hupdate, Bind.bind, Except.bind,
      pure, Except.pure, Bool.false_eq_true, if_false, eq_self_iff_true, if_true, ite_true]
  · intro db2 o2 hid hupd hdup hupdate
    simp only [ordersPullLoop, hid, hupd, hdup, hupdate, Bind.bind, Except.bind,
      pure, Except.pure, Bool.false_eq_true, if_false, eq_self_iff_true, if_true, ite_true]
  · intro fromRaw
    clear oidV
    induction os generalizing st with
    | nil =>
        intro st2 h
        simp only [ordersPullLoop, pure, Except.pure, Except.ok.injEq] at h
        rw [← h]
    | cons o2 rest ih =>
        intro st2 h
        rw [ordersPullLoop] at h
        obtain ⟨so, hso, h⟩ := except_bind_ok _ _ _ h
        obtain ⟨st1, o1⟩ := so
        dsimp only at h
        obtain ⟨idv, hidv, h⟩ := except_bind_ok _ _ _ h
        obtain ⟨uav, huav, h⟩ := except_bind_ok _ _ _ h
        obtain ⟨ua2, hua2, h⟩ := except_bind_ok _ _ _ h
        have hprops : st1.props = st.props := by
          by_cases hfr : fromRaw = true
          · rw [if_pos hfr] at hso
            simp only [pure, Except.pure, Except.ok.injEq, Prod.mk.injEq] at hso
            rw [← hso.1]
          · rw [if_neg hfr] at hso
            obtain ⟨pr, hpr, hso⟩ := except_bind_ok _ _ _ hso
            obtain ⟨dbr, obr⟩ := pr
            dsimp only at hso
            simp only [pure, Except.pure, Except.ok.injEq, Prod.mk.injEq] at hso
            rw [← hso.1]
        by_cases hdup : isDupOfLast st1.props st1.updateCount idv ua2 = true
        · rw [if_pos hdup] at h
          rw [← hprops]
          exact ih st1 st2 h
        · rw [if_neg hdup] at h
          obtain ⟨du, hdu, h⟩ := except_bind_ok _ _ _ h
          obtain ⟨db2, o3⟩ := du
          dsimp only at h
          simp only [Bool.false_eq_true, if_false] at h
          exact (ih _ st2 h).trans hprops
  · intro hid hupd hdup
    simp only [catalogPullLoop, hid, hupd, hdup, Bind.bind, Except.bind,
      pure, Except.pure, eq_self_iff_true, if_true, ite_true]
  · intro coll2 o2 hid hupd hdup hupdate
    simp only [catalogPullLoop, hid, hupd, hdup, hupdate, Bind.bind, Except.bind,
      pure, Except.pure, Bool.false_eq_true, if_false, eq_self_iff_true, if_true, ite_true]
  · clear oidV
    induction os generalizing cst with
    | nil =>
        intro st2 h
        simp only [catalogPullLoop, pure, Except.pure, Except.ok.injEq] at h
        rw [← h]
    | cons o2 rest ih =>
        intro st2 h
        rw [catalogPullLoop] at h
        obtain ⟨idv, hidv, h⟩ := except_bind_ok _ _ _ h
        obtain ⟨uav, huav, h⟩ := except_bind_ok _ _ _ h
        obtain ⟨ua2, hua2, h⟩ := except_bind_ok _ _ _ h
        by_cases hdup : isDupOfLast cst.props cst.updateCount idv ua2 = true
        · rw [if_pos hdup] at h
          exact ih cst st2 h
        · rw [if_neg hdup] at h
          obtain ⟨cu, hcu, h⟩ := except_bind_ok _ _ _ h
          obtain ⟨cc2, o3⟩ := cu
          dsimp only at h
          simp only [Bool.false_eq_true, if_false] at h
          have hres := ih ⟨cc2, cst.props, cst.updateCount + 1⟩ st2 h
          exact hres


theorem c1_pull_watermark_witness :
    ordersPullLoop (fun str => (str.length : Int)) (fun _ => .failure []) (fun _ => .failure [])
      true true [.vObj [("id", .vStr "X"), ("updated_at", .vStr "2020")]]
      ⟨SqDb.empty, ⟨some "square_orders",
        [("last_id", .vStr "X"), ("last_updated", .vDT 4)], .vBool true, []⟩, 0⟩ =
    ordersPullLoop (fun str => (str.length : Int)) (fun _ => .failure []) (fun _ => .failure [])
      true true []
      ⟨SqDb.empty, ⟨some "square_orders",
        [("last_id", .vStr "X"), ("last_updated", .vDT 4)], .vBool true, []⟩, 0⟩ :=
  (c1_pull_watermark (fun str => (str.length : Int)) (fun _ => .failure [])
    (fun _ => .failure []) true []
    ⟨SqDb.empty, ⟨some "square_orders",
      [("last_id", .vStr "X"), ("last_updated", .vDT 4)], .vBool true, []⟩, 0⟩
    (.vObj [("id", .vStr "X"), ("updated_at", .vStr "2020")]) (.vStr "X") "2020"
    "square_catalog_items" ⟨[], ⟨some "square_catalog_items", [], .vBool true, []⟩, 0⟩ []).1
    rfl rfl (by
      have h4 : (("2020".length : Int)) = 4 := rfl
      simp [isDupOfLast, configGetattr, lookupKey, Value.beq, h4])

/-! ## C5: what the stored document is -/

/-- C5 counterexample: the stored order document is NOT the decoded source
object with only `_id` added.  On an order with no `state` and no `source`,
`Orders.update_order` additionally stores `state` (the possibly refined
order state, here None) and `source` (defaulted to Point of Sale), so two
fields are added beyond `_id`. -/
theorem c5_counterexample :
    (updateOrder (fun str => (str.length : Int)) (fun _ => .failure [])
      (fun _ => .failure []) SqDb.empty
      (.vObj [("id", .vStr "A"), ("updated_at", .vStr "2020")])).map
        (fun p => (lookupKey p.1.orders "A", p.2)) =
      .ok (some (.vObj
        [("id", .vStr "A"), ("updated_at", .vDT 4), ("_id", .vStr "A"),
         ("state", .vNone),
         ("source", .vObj [("name", .vStr "Point of Sale")])]),
        .vObj
        [("id", .vStr "A"), ("updated_at", .vDT 4), ("_id", .vStr "A"),
         ("state", .vNone),
         ("source", .vObj [("name", .vStr "Point of Sale")])]) ∧
    decodeOrderFields (fun str => (str.length : Int))
      [("id", .vStr "A"), ("updated_at", .vStr "2020")] =
      .ok [("id", .vStr "A"), ("updated_at", .vDT 4)] ∧
    lookupKey (setKey [("id", Value.vStr "A"), ("updated_at", Value.vDT 4)]
      "_id" (.vStr "A")) "source" = none ∧
    lookupKey
      [("id", Value.vStr "A"), ("updated_at", Value.vDT 4), ("_id", Value.vStr "A"),
       ("state", Value.vNone),
       ("source", Value.vObj [("name", Value.vStr "Point of Sale")])] "source" =
      some (.vObj [("name", .vStr "Point of Sale")]) :=
  ⟨rfl, rfl, rfl, rfl⟩

theorem processTenders_frame (decode : String → Int) (payApi : String → ApiResult)
    (db : SqDb) (fs : List (String × Value)) (db2 : SqDb)
    (fs2 : List (String × Value))
    (h : processTenders decode payApi db fs = .ok (db2, fs2)) :
    ∀ k, k ≠ "tenders" → lookupKey fs2 k = lookupKey fs k := by
  intro k hk
  unfold processTenders at h
  cases hl : lookupKey fs "tenders" with
  | none =>
      rw [hl] at h
      dsimp only at h
      simp only [pure, Except.pure, Except.ok.injEq, Prod.mk.injEq] at h
      rw [← h.2]
  | some tv =>
      rw [hl] at h
      dsimp only at h
      by_cases ht : pyTruthy tv = true
      · rw [if_pos ht] at h
        cases tv with
        | vList ts =>
            obtain ⟨p, hp, h⟩ := except_bind_ok _ _ _ h
            obtain ⟨dbx, tsx⟩ := p
            dsimp only at h
            simp only [pure, Except.pure, Except.ok.injEq, Prod.mk.injEq] at h
            rw [← h.2]
            exact lookupKey_setKey_ne _ _ _ _ (Ne.symm hk)
        | vNone => cases h
        | vBool b => cases h
        | vInt n => cases h
        | vStr a => cases h
        | vDT n => cases h
        | vObj fsx => cases h
      · rw [if_neg ht] at h
        simp only [pure, Except.pure, Except.ok.injEq, Prod.mk.injEq] at h
        rw [← h.2]

theorem processFulfillments_frame (db : SqDb) (fs : List (String × Value))
    (db2 : SqDb) (fs2 : List (String × Value))
    (h : processFulfillments db fs = .ok (db2, fs2)) :
    ∀ k, k ≠ "fulfillments" → lookupKey fs2 k = lookupKey fs k := by
  intro k hk
  unfold processFulfillments at h
  cases hl : lookupKey fs "fulfillments" with
  | none =>
      rw [hl] at h
      dsimp only at h
      simp only [pure, Except.pure, Except.ok.injEq, Prod.mk.injEq] at h
      rw [← h.2]
  | some fv =>
      rw [hl] at h
      dsimp only at h
      obtain ⟨items, hitems, h⟩ := except_bind_ok _ _ _ h
      obtain ⟨p, hp, h⟩ := except_bind_ok _ _ _ h
      obtain ⟨dbx, itemsx⟩ := p
      dsimp only at h
      simp only [pure, Except.pure, Except.ok.injEq, Prod.mk.injEq] at h
      rw [← h.2]
      exact lookupKey_setKey_ne _ _ _ _ (Ne.symm hk)

theorem processItemizations_frame (db : SqDb) (fs : List (String × Value))
    (db2 : SqDb) (fs2 : List (String × Value))
    (h : processItemizations db fs = .ok (db2, fs2)) :
    ∀ k, k ≠ "line_items" → lookupKey fs2 k = lookupKey fs k := by
  intro k hk
  unfold processItemizations at h
  obtain ⟨props, hprops, h⟩ := except_bind_ok _ _ _ h
  dsimp only at h
  cases hl : lookupKey fs "line_items" with
  | none =>
      rw [hl] at h
      dsimp only at h
      simp only [pure, Except.pure, Except.ok.injEq, Prod.mk.injEq] at h
      rw [← h.2]
  | some lv =>
      rw [hl] at h
      dsimp only at h
      obtain ⟨items, hitems, h⟩ := except_bind_ok _ _ _ h
      obtain ⟨p, hp, h⟩ := except_bind_ok _ _ _ h
      obtain ⟨dbx, itemsx⟩ := p
      dsimp only at h
      simp only [pure, Except.pure, Except.ok.injEq, Prod.mk.injEq] at h
      rw [← h.2]
      exact lookupKey_setKey_ne _ _ _ _ (Ne.symm hk)

theorem processReturns_frame (db : SqDb) (fs : List (String × Value))
    (db2 : SqDb) (fs2 : List (String × Value))
    (h : processReturns db fs = .ok (db2, fs2)) :
    ∀ k, k ≠ "returns" → lookupKey fs2 k = lookupKey fs k := by
  intro k hk
  unfold processReturns at h
  cases hl : lookupKey fs "returns" with
  | none =>
      rw [hl] at h
      dsimp only at h
      simp only [pure, Except.pure, Except.ok.injEq, Prod.mk.injEq] at h
      rw [← h.2]
  | some rv =>
      rw [hl] at h
      dsimp only at h
      obtain ⟨rets, hrets, h⟩ := except_bind_ok _ _ _ h
      obtain ⟨p, hp, h⟩ := except_bind_ok _ _ _ h
      obtain ⟨dbx, retsx⟩ := p
      dsimp only at h
      simp only [pure, Except.pure, Except.ok.injEq, Prod.mk.injEq] at h
      rw [← h.2]
      exact lookupKey_setKey_ne _ _ _ _ (Ne.symm hk)

/-- C5 (amended): the stored order document is the source order with its
timestamp fields decoded, `_id` added from `id`, the `state` field set to the
(possibly refined) order state, the `source` field defaulted to Point of
Sale when absent, and the embedded tenders / fulfillments / line_items /
returns lists annotated in place; every other top-level field is stored
verbatim from the decoded source.  The stored catalog document is the
decoded source with `_id` added from `id` and the `<type>_data` subobject
flattened into the top level and removed, upserted under the id. -/
theorem c5_stored_doc :
    (∀ decode payApi refApi db ov db2 doc,
      updateOrder decode payApi refApi db ov = .ok (db2, doc) →
      ∃ fs0 fs1 oidV oid fs8, ∃ db5 : SqDb,
        asObj ov = .ok fs0 ∧
        decodeOrderFields decode fs0 = .ok fs1 ∧
        getFieldFs fs1 "id" = .ok oidV ∧
        asStr oidV = .ok oid ∧
        doc = .vObj fs8 ∧
        db2 = { db5 with orders := updateOrderDb db5.orders oid (.vObj fs8) } ∧
        lookupKey fs8 "_id" = some oidV ∧
        (∀ k, k ∉ ["_id", "state", "source", "tenders", "fulfillments",
            "line_items", "returns"] →
          lookupKey fs8 k = lookupKey fs1 k)) ∧
    (∀ decode collName coll ov coll2 doc,
      catalogUpdateObj decode collName coll ov = .ok (coll2, doc) →
      ∃ fs0 fs1 oidV oid ot dv dfs,
        asObj ov = .ok fs0 ∧
        decodeCatalogObj decode fs0 = .ok fs1 ∧
        getFieldFs fs1 "id" = .ok oidV ∧
        asStr oidV = .ok oid ∧
        getObjectType collName = some ot ∧
        getFieldFs (setKey fs1 "_id" oidV) (pyLower ot ++ "_data") = .ok dv ∧
        asObj dv = .ok dfs ∧
        doc = .vObj (removeKey (updateFields (setKey fs1 "_id" oidV) dfs)
          (pyLower ot ++ "_data")) ∧
        coll2 = setKey coll oid doc) := by
  constructor
  · intro decode payApi refApi db ov db2 doc h
    unfold updateOrder at h
    obtain ⟨fs0, h0, h⟩ := except_bind_ok _ _ _ h
    obtain ⟨fs1, h1, h⟩ := except_bind_ok _ _ _ h
    obtain ⟨oidV, hoid, h⟩ := except_bind_ok _ _ _ h
    try dsimp only at h
    obtain ⟨u, hu, h⟩ := except_bind_ok _ _ _ h
    obtain ⟨st, hst, h⟩ := except_bind_ok _ _ _ h
    try dsimp only at h
    obtain ⟨p1, hp1, h⟩ := except_bind_ok _ _ _ h
    obtain ⟨db1, fs5⟩ := p1
    try dsimp only at h
    obtain ⟨p2, hp2, h⟩ := except_bind_ok _ _ _ h
    obtain ⟨db2x, fs6⟩ := p2
    try dsimp only at h
    obtain ⟨p3, hp3, h⟩ := except_bind_ok _ _ _ h
    obtain ⟨db3, fs7⟩ := p3
    try dsimp only at h
    obtain ⟨db4, hdb4, h⟩ := except_bind_ok _ _ _ h
    obtain ⟨p5, hp5, h⟩ := except_bind_ok _ _ _ h
    obtain ⟨db5, fs8⟩ := p5
    try dsimp only at h
    obtain ⟨oid, hoids, h⟩ := except_bind_ok _ _ _ h
    simp only [pure, Except.pure, Except.ok.injEq, Prod.mk.injEq] at h
    refine ⟨fs0, fs1, oidV, oid, fs8, db5, h0, h1, hoid, hoids, h.2.symm, h.1.symm,
      ?_, ?_⟩
    · have h5 := processReturns_frame _ _ _ _ hp5 "_id" (by decide)
      have h3 := processItemizations_frame _ _ _ _ hp3 "_id" (by decide)
      have h2 := processFulfillments_frame _ _ _ _ hp2 "_id" (by decide)
      have hT := processTenders_frame _ _ _ _ _ _ hp1 "_id" (by decide)
      rw [h5, h3, h2, hT]
      unfold applyOrderCustomizations
      rw [lookupKey_setKey_ne _ _ _ _ (by decide)]
      rw [lookupKey_setKey_ne _ _ _ _ (by decide)]
      exact lookupKey_setKey_self _ _ _
    · intro k hk
      simp only [List.mem_cons, List.not_mem_nil, or_false, not_or] at hk
      obtain ⟨hk1, hk2, hk3, hk4, hk5, hk6, hk7⟩ := hk
      have h5 := processReturns_frame _ _ _ _ hp5 k hk7
      have h3 := processItemizations_frame _ _ _ _ hp3 k hk6
      have h2 := processFulfillments_frame _ _ _ _ hp2 k hk5
      have hT := processTenders_frame _ _ _ _ _ _ hp1 k hk4
      rw [h5, h3, h2, hT]
      unfold applyOrderCustomizations
      rw [lookupKey_setKey_ne _ _ _ _ (Ne.symm hk3)]
      rw [lookupKey_setKey_ne _ _ _ _ (Ne.symm hk2)]
      rw [lookupKey_setKey_ne _ _ _ _ (Ne.symm hk1)]
  · intro decode collName coll ov coll2 doc h
    unfold catalogUpdateObj at h
    obtain ⟨fs0, h0, h⟩ := except_bind_ok _ _ _ h
    obtain ⟨fs1, h1, h⟩ := except_bind_ok _ _ _ h
    obtain ⟨oidV, hoid, h⟩ := except_bind_ok _ _ _ h
    try dsimp only at h
    obtain ⟨u, hu, h⟩ := except_bind_ok _ _ _ h
    obtain ⟨fs3, hfs3, h⟩ := except_bind_ok _ _ _ h
    obtain ⟨oid, hoids, h⟩ := except_bind_ok _ _ _ h
    simp only [pure, Except.pure, Except.ok.injEq, Prod.mk.injEq] at h
    unfold applyObjectCustomizations at hfs3
    cases hot : getObjectType collName with
    | none =>
        rw [hot] at hfs3
        cases hfs3
    | some ot =>
        rw [hot] at hfs3
        try dsimp only at hfs3
        obtain ⟨dv, hdv, hfs3⟩ := except_bind_ok _ _ _ hfs3
        obtain ⟨dfs, hdfs, hfs3⟩ := except_bind_ok _ _ _ hfs3
        try dsimp only at hfs3
        simp only [pure, Except.pure, Except.ok.injEq] at hfs3
        refine ⟨fs0, fs1, oidV, oid, ot, dv, dfs, h0, h1, hoid, hoids, rfl, hdv, hdfs,
          ?_, ?_⟩
        · rw [← h.2, ← hfs3]
        · rw [← h.1, ← h.2]

theorem c5_stored_doc_witness :
    ∃ fs0 fs1 oidV oid fs8, ∃ db5 : SqDb,
      asObj (Value.vObj [("id", .vStr "A"), ("updated_at", .vStr "2020")]) = .ok fs0 ∧
      decodeOrderFields (fun str => (str.length : Int)) fs0 = .ok fs1 ∧
      getFieldFs fs1 "id" = .ok oidV ∧
      asStr oidV = .ok oid ∧
      (Value.vObj
        [("id", .vStr "A"), ("updated_at", .vDT 4), ("_id", .vStr "A"),
         ("state", .vNone),
         ("source", .vObj [("name", .vStr "Point of Sale")])]) = .vObj fs8 ∧
      ({ SqDb.empty with orders :=
          [("A", Value.vObj
            [("id", .vStr "A"), ("updated_at", .vDT 4), ("_id", .vStr "A"),
             ("state", .vNone),
             ("source", .vObj [("name", .vStr "Point of Sale")])])] } : SqDb) =
        { db5 with orders := updateOrderDb db5.orders oid (.vObj fs8) } ∧
      lookupKey fs8 "_id" = some oidV ∧
      (∀ k, k ∉ ["_id", "state", "source", "tenders", "fulfillments",
          "line_items", "returns"] →
        lookupKey fs8 k = lookupKey fs1 k) :=
  c5_stored_doc.1 (fun str => (str.length : Int)) (fun _ => .failure [])
    (fun _ => .failure []) SqDb.empty
    (.vObj [("id", .vStr "A"), ("updated_at", .vStr "2020")])
    ({ SqDb.empty with orders :=
        [("A", Value.vObj
          [("id", .vStr "A"), ("updated_at", .vDT 4), ("_id", .vStr "A"),
           ("state", .vNone),
           ("source", .vObj [("name", .vStr "Point of Sale")])])] })
    (.vObj
      [("id", .vStr "A"), ("updated_at", .vDT 4), ("_id", .vStr "A"),
       ("state", .vNone),
       ("source", .vObj [("name", .vStr "Point of Sale")])])
    rfl

/-! ## C7: the report net columns -/

theorem modifyRow_keys (sec : List (String × Row)) (k : String) (f : Row → Row) :
    (modifyRow sec k f).map Prod.fst = sec.map Prod.fst := by
  induction sec with
  | nil => rfl
  | cons kv rest ih =>
      by_cases h : kv.1 = k
      · simp [modifyRow, h] at ih ⊢
        exact ih
      · simp [modifyRow, h] at ih ⊢
        exact ih

theorem lookupKey_modifyRow_self (sec : List (String × Row)) (k : String)
    (f : Row → Row) :
    lookupKey (modifyRow sec k f) k = (lookupKey sec k).map f := by
  induction sec with
  | nil => rfl
  | cons kv rest ih =>
      obtain ⟨k0, v0⟩ := kv
      have hcons : modifyRow ((k0, v0) :: rest) k f =
          (if k0 = k then (k0, f v0) else (k0, v0)) :: modifyRow rest k f := rfl
      rw [hcons]
      by_cases h : k0 = k
      · rw [if_pos h]
        simp [lookupKey, h]
      · rw [if_neg h]
        simp [lookupKey, h]
        exact ih

theorem lookupKey_modifyRow_ne (sec : List (String × Row)) (k k' : String)
    (f : Row → Row) (h : k' ≠ k) :
    lookupKey (modifyRow sec k f) k' = lookupKey sec k' := by
  induction sec with
  | nil => rfl
  | cons kv rest ih =>
      obtain ⟨k0, v0⟩ := kv
      have hcons : modifyRow ((k0, v0) :: rest) k f =
          (if k0 = k then (k0, f v0) else (k0, v0)) :: modifyRow rest k f := rfl
      rw [hcons]
      by_cases h0 : k0 = k
      · rw [if_pos h0]
        have hne : k0 ≠ k' := by
          rw [h0]
          exact Ne.symm h
        simp [lookupKey, hne]
        exact ih
      · rw [if_neg h0]
        by_cases h1 : k0 = k'
        · simp [lookupKey, h1]
        · simp [lookupKey, h1]
          exact ih

theorem lookupKey_mapNets (sec : List (String × Row)) (k : String) :
    lookupKey (mapNets sec) k =
      (lookupKey sec k).map (fun r => { r with net := r.sales + r.refunds }) := by
  induction sec with
  | nil => rfl
  | cons kv rest ih =>
      obtain ⟨k0, v0⟩ := kv
      by_cases h : k0 = k
      · simp [mapNets, lookupKey, h]
      · simp [mapNets, lookupKey, h]
        simpa [mapNets] using ih

theorem mapNets_row_net (sec : List (String × Row)) :
    ∀ kv ∈ mapNets sec, kv.2.net = kv.2.sales + kv.2.refunds := by
  intro kv hkv
  simp only [mapNets, List.mem_map] at hkv
  obtain ⟨a, ha, he⟩ := hkv
  rw [← he]

theorem rowOf_mapNets_sales (sec : List (String × Row)) (k : String) :
    (rowOf (mapNets sec) k).sales = (rowOf sec k).sales := by
  unfold rowOf
  rw [lookupKey_mapNets]
  cases lookupKey sec k <;> rfl

theorem rowOf_mapNets_refunds (sec : List (String × Row)) (k : String) :
    (rowOf (mapNets sec) k).refunds = (rowOf sec k).refunds := by
  unfold rowOf
  rw [lookupKey_mapNets]
  cases lookupKey sec k <;> rfl

theorem rowOf_modifyRow_ne (sec : List (String × Row)) (k k' : String)
    (f : Row → Row) (h : k' ≠ k) :
    rowOf (modifyRow sec k f) k' = rowOf sec k' := by
  unfold rowOf
  rw [lookupKey_modifyRow_ne _ _ _ _ h]

theorem lookupKey_isSome_of_mem_keys {κ α : Type} [DecidableEq κ]
    (sec : List (κ × α)) (k : κ) (h : k ∈ sec.map Prod.fst) :
    (lookupKey sec k).isSome := by
  induction sec with
  | nil => simp at h
  | cons kv rest ih =>
      obtain ⟨k0, v0⟩ := kv
      by_cases h0 : k0 = k
      · simp [lookupKey, h0]
      · have h2 : k ∈ rest.map Prod.fst := by
          simp only [List.map_cons, List.mem_cons] at h
          rcases h with h | h
          · exact absurd h.symm h0
          · exact h
        simp [lookupKey, h0]
        exact ih h2

theorem setSalesData_skeys (d : RData) (rs : List SalesAgg) :
    (setSalesData d rs).summary.map Prod.fst = d.summary.map Prod.fst := by
  cases rs with
  | nil => rfl
  | cons r rest => simp [setSalesData, modifyRow_keys]

theorem setGiftCardSalesData_skeys (d : RData) (rs : List GiftCardAgg) :
    (setGiftCardSalesData d rs).summary.map Prod.fst = d.summary.map Prod.fst := by
  cases rs with
  | nil => rfl
  | cons r rest => simp [setGiftCardSalesData, modifyRow_keys]

theorem setProcessingFee_skeys (d : RData) (cc gcl : List Int) :
    (setProcessingFee d cc gcl).summary.map Prod.fst = d.summary.map Prod.fst := by
  cases cc with
  | nil =>
      cases gcl with
      | nil => rfl
      | cons a rest => simp [setProcessingFee, modifyRow_keys]
  | cons a rest =>
      cases gcl with
      | nil => simp [setProcessingFee, modifyRow_keys]
      | cons b rest2 => simp [setProcessingFee, modifyRow_keys]

theorem setServiceChargeData_skeys (rs : List (Option String × Int)) :
    ∀ d : RData,
      (setServiceChargeData d rs).summary.map Prod.fst = d.summary.map Prod.fst := by
  induction rs with
  | nil => intro d; rfl
  | cons r rest ih =>
      intro d
      have hstep : setServiceChargeData d (r :: rest) = setServiceChargeData (if r.1 = some "Gratuity" then { d with summary := modifyRow d.summary "tip" (fun row => { row with sales := row.sales + r.2 }) } else d) rest := rfl
      rw [hstep, ih]
      by_cases h : r.1 = some "Gratuity"
      · simp [h, modifyRow_keys]
      · simp [h]

theorem setRefundDataReturns_skeys (d : RData) (rs : List RefundAgg) :
    (setRefundDataReturns d rs).summary.map Prod.fst = d.summary.map Prod.fst := by
  cases rs with
  | nil => rfl
  | cons r rest => simp [setRefundDataReturns, modifyRow_keys]

theorem setRefundDataReturnsCustom_skeys (d : RData) (rs : List Int) :
    (setRefundDataReturnsCustom d rs).summary.map Prod.fst = d.summary.map Prod.fst := by
  cases rs with
  | nil => rfl
  | cons r rest => simp [setRefundDataReturnsCustom, modifyRow_keys]

theorem setRefundDataTips_skeys (d : RData) (rs : List TipsRefundAgg) :
    (setRefundDataTips d rs).summary.map Prod.fst = d.summary.map Prod.fst := by
  cases rs with
  | nil => rfl
  | cons r rest => simp [setRefundDataTips, modifyRow_keys]

theorem setRefundData_skeys (d : RData) (a : List RefundAgg) (b : List Int)
    (c : List TipsRefundAgg) :
    (setRefundData d a b c).summary.map Prod.fst = d.summary.map Prod.fst := by
  unfold setRefundData
  rw [setRefundDataTips_skeys, setRefundDataReturnsCustom_skeys,
    setRefundDataReturns_skeys]

theorem setProcessingFeeRefund_skeys (d : RData) (rs : List Int) :
    (setProcessingFeeRefund d rs).summary.map Prod.fst = d.summary.map Prod.fst := by
  cases rs with
  | nil => rfl
  | cons r rest => simp [setProcessingFeeRefund, modifyRow_keys]

theorem setCategorySalesData_summary (d : RData) (rs : List (Option String × Int)) :
    (setCategorySalesData d rs).summary = d.summary := rfl

theorem setCategoryRefundData_summary (d : RData) (rs : List (Option String × Int)) :
    (setCategoryRefundData d rs).summary = d.summary := rfl

theorem setCostSalesData_summary (d : RData) (rs : List (Option String × Int)) :
    (setCostSalesData d rs).summary = d.summary := rfl

theorem setCollectedSalesData_summary (d : RData) (rs : List (String × Int))
    (d2 : RData) (h : setCollectedSalesData d rs = some d2) :
    d2.summary = d.summary := by
  unfold setCollectedSalesData at h
  cases hm : collectedSalesLoop d.collected 0 rs with
  | none => rw [hm] at h; cases h
  | some p =>
      rw [hm] at h
      obtain ⟨sec, total⟩ := p
      dsimp only at h
      simp only [Option.some.injEq] at h
      rw [← h]

theorem setCollectedRefundData_summary (d : RData) (rs : List (String × Int))
    (d2 : RData) (h : setCollectedRefundData d rs = some d2) :
    d2.summary = d.summary := by
  unfold setCollectedRefundData at h
  cases hm : collectedRefundLoop d.collected 0 rs with
  | none => rw [hm] at h; cases h
  | some p =>
      rw [hm] at h
      obtain ⟨sec, total⟩ := p
      dsimp only at h
      simp only [Option.some.injEq] at h
      rw [← h]

theorem getData_some (start endT : String) (inp : ReportInputs) (d : RData)
    (h : getData start endT inp = some d) :
    ∃ d5 d10 : RData,
      setCollectedSalesData
        (setCategorySalesData
          (setProcessingFee
            (setGiftCardSalesData (setSalesData (initData start endT) inp.sales)
              inp.giftCard)
            inp.procFeeCC inp.procFeeGCLoad)
          inp.categorySales)
        inp.collectedSales = some d5 ∧
      setCollectedRefundData
        (setCategoryRefundData
          (setProcessingFeeRefund
            (setRefundData (setServiceChargeData d5 inp.serviceCharges)
              inp.refundReturns inp.refundCustom inp.refundTips)
            inp.procFeeRefund)
          inp.categoryRefunds)
        inp.collectedRefunds = some d10 ∧
      d = calculateNet (setCostSalesData d10 inp.costSales) := by
  unfold getData at h
  dsimp only at h
  split at h
  · cases h
  · rename_i d5 hm1
    split at h
    · cases h
    · rename_i d10 hm2
      simp only [Option.some.injEq] at h
      exact ⟨d5, d10, hm1, hm2, h.symm⟩

theorem calculateNet_spec (x : RData) (r0 : Row)
    (hq : lookupKey x.summary "net_total" = some r0) :
    (rowOf (calculateNet x).summary "net_total").sales =
      (rowOf (calculateNet x).collected "total").sales +
        (rowOf (calculateNet x).summary "fee").sales ∧
    (rowOf (calculateNet x).summary "net_total").refunds =
      (rowOf (calculateNet x).collected "total").refunds +
        (rowOf (calculateNet x).summary "fee").refunds := by
  have hfee : ("fee" : String) ≠ "net_total" := by decide
  unfold calculateNet
  dsimp only
  constructor
  · conv_lhs => rw [rowOf, lookupKey_mapNets, lookupKey_modifyRow_self,
      lookupKey_modifyRow_self, hq]
    simp only [Option.map_some', Option.getD_some]
    rw [rowOf_mapNets_sales, rowOf_mapNets_sales,
      rowOf_modifyRow_ne _ _ _ _ hfee, rowOf_modifyRow_ne _ _ _ _ hfee]
  · conv_lhs => rw [rowOf, lookupKey_mapNets, lookupKey_modifyRow_self,
      lookupKey_modifyRow_self, hq]
    simp only [Option.map_some', Option.getD_some]
    rw [rowOf_mapNets_refunds, rowOf_mapNets_refunds,
      rowOf_modifyRow_ne _ _ _ _ hfee, rowOf_modifyRow_ne _ _ _ _ hfee]
    rw [rowOf_modifyRow_ne _ _ _ _ hfee]

/-- C7: after `ReportData.get_data` every row of every section satisfies
net = sales + refunds; the summary net_total row's sales and refunds columns
equal the collected total plus the fee; and `init_data` starts every row at
the zero sales/refunds/net structure (all arithmetic is exact Int
arithmetic by construction). -/
theorem c7_report_net (start endT : String) (inp : ReportInputs) (d : RData)
    (h : getData start endT inp = some d) :
    (∀ kv ∈ d.summary, kv.2.net = kv.2.sales + kv.2.refunds) ∧
    (∀ kv ∈ d.collected, kv.2.net = kv.2.sales + kv.2.refunds) ∧
    (∀ kv ∈ d.categorySales, kv.2.net = kv.2.sales + kv.2.refunds) ∧
    (∀ kv ∈ d.cost, kv.2.net = kv.2.sales + kv.2.refunds) ∧
    (rowOf d.summary "net_total").sales =
      (rowOf d.collected "total").sales + (rowOf d.summary "fee").sales ∧
    (rowOf d.summary "net_total").refunds =
      (rowOf d.collected "total").refunds + (rowOf d.summary "fee").refunds ∧
    (∀ kv ∈ (initData start endT).summary, kv.2 = Row.zero) ∧
    (∀ kv ∈ (initData start endT).collected, kv.2 = Row.zero) ∧
    (∀ kv ∈ (initData start endT).categorySales, kv.2 = Row.zero) ∧
    (∀ kv ∈ (initData start endT).cost, kv.2 = Row.zero) := by
  obtain ⟨d5, d10, hm1, hm2, hd⟩ := getData_some start endT inp d h
  subst hd
  have hkeys : (setCostSalesData d10 inp.costSales).summary.map Prod.fst =
      (initData start endT).summary.map Prod.fst := by
    rw [setCostSalesData_summary,
      setCollectedRefundData_summary _ _ _ hm2,
      setCategoryRefundData_summary,
      setProcessingFeeRefund_skeys,
      setRefundData_skeys,
      setServiceChargeData_skeys,
      setCollectedSalesData_summary _ _ _ hm1,
      setCategorySalesData_summary,
      setProcessingFee_skeys,
      setGiftCardSalesData_skeys,
      setSalesData_skeys]
  have hmem : "net_total" ∈ (setCostSalesData d10 inp.costSales).summary.map Prod.fst := by
    rw [hkeys]
    simp [initData]
  obtain ⟨r0, hr0⟩ := Option.isSome_iff_exists.mp
    (lookupKey_isSome_of_mem_keys _ _ hmem)
  have hspec := calculateNet_spec (setCostSalesData d10 inp.costSales) r0 hr0
  refine ⟨?_, ?_, ?_, ?_, hspec.1, hspec.2, ?_, ?_, ?_, ?_⟩
  · exact mapNets_row_net _
  · exact mapNets_row_net _
  · exact mapNets_row_net _
  · exact mapNets_row_net _
  · simp [initData, Row.zero]
  · simp [initData, Row.zero]
  · simp [initData, Row.zero]
  · simp [initData, Row.zero]

theorem c7_report_net_witness :
    (∀ kv ∈ exReportData.summary, kv.2.net = kv.2.sales + kv.2.refunds) ∧
    (∀ kv ∈ exReportData.collected, kv.2.net = kv.2.sales + kv.2.refunds) ∧
    (∀ kv ∈ exReportData.categorySales, kv.2.net = kv.2.sales + kv.2.refunds) ∧
    (∀ kv ∈ exReportData.cost, kv.2.net = kv.2.sales + kv.2.refunds) ∧
    (rowOf exReportData.summary "net_total").sales =
      (rowOf exReportData.collected "total").sales +
        (rowOf exReportData.summary "fee").sales ∧
    (rowOf exReportData.summary "net_total").refunds =
      (rowOf exReportData.collected "total").refunds +
        (rowOf exReportData.summary "fee").refunds ∧
    (∀ kv ∈ (initData "s" "e").summary, kv.2 = Row.zero) ∧
    (∀ kv ∈ (initData "s" "e").collected, kv.2 = Row.zero) ∧
    (∀ kv ∈ (initData "s" "e").categorySales, kv.2 = Row.zero) ∧
    (∀ kv ∈ (initData "s" "e").cost, kv.2 = Row.zero) :=
  c7_report_net "s" "e" exReportInputs exReportData rfl

end Squaredown
